import Mathlib

/-!
Verification development for the peak-acl protocol engine.

This file shallowly embeds the core of the repository:

* `message/aid.py`, `message/acl.py`        — data model (`Aid`, `AclMessage`)
* `message/serialize.py`                    — ACL serializer (`dumps`)
* `parser/visitor.py`, `parse_helpers.py`   — parse-tree visitor and helpers
* the ACL grammar itself (ANTLR-generated `ACLLexer`/`ACLParser`, not part of
  the source tree) is modelled from the spec, §4.1
* `sl0.py`                                  — SL0 S-expression codec
* `transport/http_mtp.py`                   — multipart splitting / extraction
* `message/envelope.py`                     — XML envelope codec
* `runtime/conversation.py`                 — conversation state machine

Strings are modelled by Lean `String` over their character lists; Python's
byte/str distinction is collapsed (all payloads in the claims are UTF-8 text
and decoding uses `errors="replace"` only on inputs we never make invalid).
Python character predicates (`str.isspace`, `str.lower`, …) are modelled on
the ASCII fragment, which covers every string the claims quantify over.
-/

namespace PeakAcl

/-! ## Character and string utilities (Python semantics, ASCII fragment) -/

/-- ASCII whitespace, as recognised by Python `str.strip`/`bytes.strip`. -/
def isSpaceCh (c : Char) : Bool :=
  c = ' ' || c = '\t' || c = '\n' || c = '\r' || c = '\x0b' || c = '\x0c'

/-- Concat-map over characters (used to model Python `str.replace` chains). -/
def cMap (f : Char → List Char) : List Char → List Char
  | [] => []
  | c :: t => f c ++ cMap f t

/-- Python `str.lower` on the ASCII fragment. -/
def pyLower (s : String) : String := ⟨s.data.map Char.toLower⟩

/-- Python `str.upper` on the ASCII fragment. -/
def pyUpper (s : String) : String := ⟨s.data.map Char.toUpper⟩

/-- Drop leading ASCII whitespace (Python `str.lstrip`). -/
def lstripCh (l : List Char) : List Char := l.dropWhile isSpaceCh

/-- Drop trailing ASCII whitespace. -/
def rstripCh (l : List Char) : List Char := (l.reverse.dropWhile isSpaceCh).reverse

/-- Python `str.strip` (both ends). -/
def stripCh (l : List Char) : List Char := rstripCh (lstripCh l)

/-- Python `str.strip` as a `String` function. -/
def pyStrip (s : String) : String := ⟨stripCh s.data⟩

/-- Python `str.lstrip` as a `String` function. -/
def pyLstrip (s : String) : String := ⟨lstripCh s.data⟩

/-- Is one character list a prefix of another? (Python `str.startswith`.) -/
def listIsPre : List Char → List Char → Bool
  | [], _ => true
  | _ :: _, [] => false
  | p :: ps, c :: cs => p == c && listIsPre ps cs

/-- Does a string start with `:`? -/
def colonStart (s : String) : Bool :=
  match s.data with
  | ':' :: _ => true
  | _ => false

/-- Space-join a list of strings (Python `" ".join`). -/
def spaceJoin : List String → String
  | [] => ""
  | [x] => x
  | x :: r => x ++ " " ++ spaceJoin r

/-- Join with a separator (Python `sep.join`). -/
def sepJoin (sep : String) : List String → String
  | [] => ""
  | [x] => x
  | x :: r => x ++ sep ++ sepJoin sep r

/-! ## Data model: `AgentIdentifier` (message/aid.py) -/

/-- `AgentIdentifier` from `message/aid.py`: a logical name plus transport
addresses, compared by value (Python dataclass equality). -/
structure Aid where
  name : String
  addresses : List String
deriving DecidableEq, Repr

/-! ## Visitor value domain

The ANTLR visitor (`parser/visitor.py`) produces plain Python values:
strings (atoms and `QuotedStr` string tokens — `QuotedStr` is a `str`
subclass whose equality is plain string equality, so the two are merged
here), nested `AclMessage` objects (which the visitor populates only with a
lower-cased performative and a params dict), and Python lists. -/
inductive PVal where
  | strV (s : String)
  | msgV (perf : String) (params : List (String × PVal))
  | listV (xs : List PVal)

/-! ## Data model: `AclMessage` (message/acl.py)

`content` holds a visitor value (string, nested message or list); the
source's `reply_by` is a `datetime`, modelled by its calendar fields to
second precision (the serializer prints `%Y%m%dT%H%M%S`, and no claim
observes sub-second precision).  `user_params` is an insertion-ordered
dict, modelled as an association list; `raw_text` is a debugging aid the
spec excludes and no claim observes, so it is not modelled. -/
structure AclDate where
  year : Nat
  month : Nat
  day : Nat
  hour : Nat
  minute : Nat
  second : Nat
deriving DecidableEq, Repr

structure AclMessage where
  performative : String
  sender : Option Aid := none
  receivers : List Aid := []
  replyTo : List Aid := []
  content : Option PVal := none
  language : Option String := none
  encoding : Option String := none
  ontology : Option String := none
  protocol : Option String := none
  conversationId : Option String := none
  replyWith : Option String := none
  inReplyTo : Option String := none
  replyBy : Option AclDate := none
  userParams : List (String × PVal) := []

/-- `_norm_performative` from `message/acl.py`:
`p.strip().upper().replace("_", "-")`. -/
def normPerformative (p : String) : String :=
  ⟨(stripCh p.data).map (fun c => if c.toUpper = '_' then '-' else c.toUpper)⟩

/-- The `performative_upper` property of `AclMessage`. -/
def AclMessage.performativeUpper (m : AclMessage) : String :=
  normPerformative m.performative

/-! ## Serializer (message/serialize.py) -/

/-- One hex digit, lower-case (for Python `repr` escapes). -/
def hexDigit (n : Nat) : Char := if n < 10 then Char.ofNat (48 + n) else Char.ofNat (87 + n)

/-- Escaping of one character inside a Python string `repr` with quote `q`. -/
def reprEscChar (q : Char) (c : Char) : List Char :=
  if c = '\\' then ['\\', '\\']
  else if c = q then ['\\', q]
  else if c = '\n' then ['\\', 'n']
  else if c = '\r' then ['\\', 'r']
  else if c = '\t' then ['\\', 't']
  else if c.toNat < 32 || c.toNat = 127 then
    ['\\', 'x', hexDigit (c.toNat / 16), hexDigit (c.toNat % 16)]
  else [c]

/-- Python `repr` of a string (single quotes unless the string holds a
single quote and no double quote). -/
def pyReprStr (s : String) : String :=
  let q : Char := if s.data.contains '\'' && !(s.data.contains '"') then '"' else '\''
  ⟨q :: (cMap (reprEscChar q) s.data ++ [q])⟩

/-- Python `repr`/`str` of a visitor value: list repr for lists, the
`AclMessage` dataclass repr for nested messages (which the visitor builds
with only a performative and `user_params` set). -/
def reprPVal : PVal → String
  | .strV s => pyReprStr s
  | .listV xs =>
      "[" ++ sepJoin ", " (xs.attach.map fun x => reprPVal x.1) ++ "]"
  | .msgV p ps =>
      "AclMessage(performative=" ++ pyReprStr p
        ++ ", sender=None, receivers=[], reply_to=[], content=None, language=None,"
        ++ " encoding=None, ontology=None, protocol=None, conversation_id=None,"
        ++ " reply_with=None, in_reply_to=None, reply_by=None, user_params=\x7b"
        ++ sepJoin ", " (ps.attach.map fun kv => pyReprStr kv.1.1 ++ ": " ++ reprPVal kv.1.2)
        ++ "\x7d, raw_text=None)"
termination_by v => sizeOf v
decreasing_by
  · have := List.sizeOf_lt_of_mem x.2
    simp only [PVal.listV.sizeOf_spec]
    omega
  · have h1 := List.sizeOf_lt_of_mem kv.2
    have h2 : sizeOf kv.1.2 < sizeOf kv.1 := by
      obtain ⟨a, b⟩ := kv.1
      simp only [Prod.mk.sizeOf_spec]
      omega
    simp only [PVal.msgV.sizeOf_spec]
    omega

/-- The escape used by `_quote_val`:
`s.replace("\\", "\\\\").replace('"', '\\"')`. -/
def quoteValEsc (s : String) : String :=
  ⟨cMap (fun c => if c = '\\' then ['\\', '\\'] else if c = '"' then ['\\', '"'] else [c]) s.data⟩

/-- `_quote_val` from serialize.py: values in `user_params` are escaped and
double-quoted (the numeric/bool unquoted branches concern non-string values,
outside the modelled value space; `str(v)` of a non-string visitor value is
its Python repr). -/
def quoteVal : PVal → String
  | .strV s => "\"" ++ quoteValEsc s ++ "\""
  | v => "\"" ++ quoteValEsc (reprPVal v) ++ "\""

/-- `_aid_to_fipa` from serialize.py. -/
def aidToFipa (a : Aid) : String :=
  let addrs := if a.addresses.isEmpty then "" else spaceJoin a.addresses
  let seq := if addrs == "" then "(sequence)" else "(sequence " ++ addrs ++ ")"
  "(agent-identifier :name " ++ a.name ++ " :addresses " ++ seq ++ ")"

/-- The serializer applied to a nested `AclMessage` value as produced by the
visitor (performative and `user_params` only; all other slots `None`, so
`dumps` emits exactly the performative and the user-param frags).  The lemma
`dumpsNested_eq_dumps` below ties this to the full `dumps`. -/
def dumpsNested (p : String) (ps : List (String × PVal)) : String :=
  "(" ++ normPerformative p
    ++ String.join (ps.map fun kv => " :" ++ kv.1 ++ " " ++ quoteVal kv.2) ++ ")"

/-- `_content_to_str` from serialize.py: strings already wrapped in quotes
are stripped; nested `AclMessage` content is serialized recursively; other
values fall back to Python `str`. -/
def contentToStrP : PVal → String
  | .strV c =>
      if 2 ≤ c.data.length && c.data.head? == some '"' && c.data.getLast? == some '"'
      then ⟨(c.data.drop 1).dropLast⟩ else c
  | .msgV p ps => dumpsNested p ps
  | .listV xs => reprPVal (.listV xs)

/-- Truthiness-guarded test `msg.language and msg.language.lower().startswith("fipa-sl")`. -/
def langIsSL : Option String → Bool
  | none => false
  | some l => !(l == "") && listIsPre "fipa-sl".data (pyLower l).data

/-- Does a character list start with two open parentheses? (`startswith("((")`) -/
def startsParen2 : List Char → Bool
  | '(' :: '(' :: _ => true
  | _ => false

/-- Content escaping in `dumps`: `c.replace('"', '\\"')`. -/
def escQ (s : String) : String :=
  ⟨cMap (fun c => if c = '"' then ['\\', '"'] else [c]) s.data⟩

/-- Zero-padded decimal of width `w` (as `strftime` field rendering). -/
def padNum (w n : Nat) : String :=
  let s := toString n
  ⟨List.replicate (w - s.length) '0' ++ s.data⟩

/-- `reply_by.strftime('%Y%m%dT%H%M%S')`. -/
def strfCompact (d : AclDate) : String :=
  padNum 4 d.year ++ padNum 2 d.month ++ padNum 2 d.day ++ "T"
    ++ padNum 2 d.hour ++ padNum 2 d.minute ++ padNum 2 d.second

/-- The `:sender` fragment of `dumps`. -/
def senderFrag (m : AclMessage) : String :=
  match m.sender with
  | none => ""
  | some a => " :sender " ++ aidToFipa a

/-- The `:receiver` fragment of `dumps`. -/
def receiversFrag (m : AclMessage) : String :=
  if m.receivers.isEmpty then ""
  else " :receiver (set " ++ spaceJoin (m.receivers.map aidToFipa) ++ ")"

/-- The `:reply-to` fragment of `dumps`. -/
def replyToFrag (m : AclMessage) : String :=
  if m.replyTo.isEmpty then ""
  else " :reply-to (set " ++ spaceJoin (m.replyTo.map aidToFipa) ++ ")"

/-- The `:content` fragment of `dumps`, with the DF/JADE patch: when the
language starts with `fipa-sl` the content is wrapped in one extra pair of
parentheses unless it already starts with `((`; quotes are escaped last. -/
def contentFrag (m : AclMessage) : String :=
  match m.content with
  | none => ""
  | some c0 =>
      let c1 := contentToStrP c0
      let c2 := if langIsSL m.language && !startsParen2 (lstripCh c1.data)
                then "(" ++ c1 ++ ")" else c1
      " :content \"" ++ escQ c2 ++ "\""

/-- Fragment of an optional string slot (emitted only when truthy). -/
def optFrag (lbl : String) : Option String → String
  | none => ""
  | some s => if s == "" then "" else " :" ++ lbl ++ " " ++ s

/-- The `:reply-by` fragment of `dumps` (a `datetime` is always truthy). -/
def replyByFrag (m : AclMessage) : String :=
  match m.replyBy with
  | none => ""
  | some d => " :reply-by " ++ strfCompact d

/-- The `user_params` fragments of `dumps`. -/
def userParamsFrag (m : AclMessage) : String :=
  String.join (m.userParams.map fun kv => " :" ++ kv.1 ++ " " ++ quoteVal kv.2)

/-- `dumps` from message/serialize.py. -/
def dumps (m : AclMessage) : String :=
  "(" ++ m.performativeUpper ++ senderFrag m ++ receiversFrag m ++ replyToFrag m
    ++ contentFrag m ++ optFrag "language" m.language ++ optFrag "encoding" m.encoding
    ++ optFrag "ontology" m.ontology ++ optFrag "protocol" m.protocol
    ++ optFrag "conversation-id" m.conversationId ++ optFrag "reply-with" m.replyWith
    ++ optFrag "in-reply-to" m.inReplyTo ++ replyByFrag m ++ userParamsFrag m ++ ")"

/-- `dumpsNested` is the restriction of `dumps` to visitor-built nested
messages (all slots other than the performative and `user_params` empty). -/
theorem dumpsNested_eq_dumps (p : String) (ps : List (String × PVal)) :
    dumpsNested p ps = dumps { performative := p, userParams := ps } := by
  simp [dumpsNested, dumps, AclMessage.performativeUpper, senderFrag, receiversFrag,
    replyToFrag, contentFrag, optFrag, replyByFrag, userParamsFrag]

/-! ## ACL grammar — lexing

Modelled from the spec: the ANTLR-generated `ACLLexer`/`ACLParser` are not
part of the source tree (only the visitor over their parse trees is), so the
token grammar follows §4.1 of the spec: `message := '(' PERFORMATIVE param* ')'`,
`param := ':' NAME value`, `value := atom | string | message | '(' value* ')'`,
where PERFORMATIVE/NAME are bare symbols and a string is a double-quoted
literal with `\"` and `\\` escapes.  A symbol token is a maximal run of
non-delimiter characters (a slot marker is a symbol beginning with `:`,
matching JADE symbols that contain `:` internally, e.g. `a@host:1099/JADE`);
string tokens carry their raw (still escaped) inner text, as
`ctx.STRING().getText()` does in the visitor. -/

inductive AclTok where
  | lp
  | rp
  | sym (s : String)
  | strT (raw : String)
deriving DecidableEq, Repr

/-- Token delimiters: whitespace, parentheses and the double quote. -/
def isDelimCh (c : Char) : Bool := isSpaceCh c || c = '(' || c = ')' || c = '"'

/-- Scan the inside of a string literal, keeping the raw escaped text;
`none` when the literal is unterminated.  The remainder is returned with a
proof that the closing quote was consumed (used for lexer termination). -/
def scanStr : (l : List Char) → Option (List Char × { r : List Char // r.length < l.length })
  | [] => none
  | '"' :: rest => some ([], ⟨rest, by simp⟩)
  | '\\' :: c :: rest =>
      match scanStr rest with
      | none => none
      | some (raw, ⟨r, hr⟩) => some ('\\' :: c :: raw, ⟨r, by simp; omega⟩)
  | c :: rest =>
      match scanStr rest with
      | none => none
      | some (raw, ⟨r, hr⟩) => some (c :: raw, ⟨r, by simp; omega⟩)

/-- Scan a maximal run of symbol characters, returning the token text and
the remainder (which is no longer than the input). -/
def scanSym : (l : List Char) → (List Char × { r : List Char // r.length ≤ l.length })
  | [] => ([], ⟨[], by simp⟩)
  | c :: cs =>
    if isDelimCh c then ([], ⟨c :: cs, by simp⟩)
    else
      match scanSym cs with
      | (tok, ⟨r, hr⟩) => (c :: tok, ⟨r, by simp; omega⟩)

/-- The modelled ACL lexer. -/
def lexAcl : (l : List Char) → Option (List AclTok)
  | [] => some []
  | c :: cs =>
    if isSpaceCh c then lexAcl cs
    else if c = '(' then (lexAcl cs).map (AclTok.lp :: ·)
    else if c = ')' then (lexAcl cs).map (AclTok.rp :: ·)
    else if c = '"' then
      match scanStr cs with
      | none => none
      | some (raw, ⟨rest, _⟩) => (lexAcl rest).map (AclTok.strT ⟨raw⟩ :: ·)
    else
      match scanSym cs with
      | (tok, ⟨rest, _⟩) => (lexAcl rest).map (AclTok.sym ⟨c :: tok⟩ :: ·)
termination_by l => l.length
decreasing_by
  · simp
  · simp
  · simp
  · rename_i h
    simp
    omega
  · rename_i h
    simp
    omega

/-! ## ACL grammar — parse trees

The parser is modelled in two phases: a generic S-expression pass over the
token list, then a shape pass realising the grammar's `message`/`param`
rules (`valOfSexp` below); a parenthesised group is a `message` exactly when
it has the `SYMBOL param*` shape, which is how the grammar's ordered
`value` alternatives resolve the ambiguity between `message` and
`'(' value* ')'`. -/

inductive AclSexp where
  | atom (s : String)
  | lit (raw : String)
  | node (kids : List AclSexp)
deriving Repr

mutual

/-- Parse one S-expression from a token list (remainder strictly shorter). -/
def parseSx : (toks : List AclTok) → Option (AclSexp × { r : List AclTok // r.length < toks.length })
  | [] => none
  | .sym s :: rest => some (.atom s, ⟨rest, by simp⟩)
  | .strT s :: rest => some (.lit s, ⟨rest, by simp⟩)
  | .rp :: _ => none
  | .lp :: rest =>
      match parseSxL rest with
      | none => none
      | some (xs, ⟨r, hr⟩) => some (.node xs, ⟨r, by simp; omega⟩)
termination_by toks => (toks.length, 0)

/-- Parse S-expressions up to (and consuming) a closing parenthesis. -/
def parseSxL : (toks : List AclTok) → Option (List AclSexp × { r : List AclTok // r.length < toks.length })
  | [] => none
  | .rp :: rest => some ([], ⟨rest, by simp⟩)
  | t :: ts =>
      match parseSx (t :: ts) with
      | none => none
      | some (x, ⟨r1, h1⟩) =>
        match parseSxL r1 with
        | none => none
        | some (xs, ⟨r2, h2⟩) => some (x :: xs, ⟨r2, by omega⟩)
termination_by toks => (toks.length, 1)

end

/-! ## Visitor (parser/visitor.py) -/

/-- The model of Python's `unicode_escape` decoding applied by
`MessageBuilder.visitString`.  The serializer only ever produces the `\"`
and `\\` escapes, and the spec's string grammar admits exactly those; the
remaining single-character and octal escapes are included for fidelity,
while `\x`/`\u`/`\N` sequences (absent from every value considered here)
are passed through unchanged. -/
def uEscCh : List Char → List Char
  | [] => []
  | '\\' :: c :: rest =>
      (if c = 'n' then ['\n']
       else if c = 't' then ['\t']
       else if c = 'r' then ['\r']
       else if c = '\\' then ['\\']
       else if c = '\'' then ['\'']
       else if c = '"' then ['"']
       else if c = 'a' then ['\x07']
       else if c = 'b' then ['\x08']
       else if c = 'f' then ['\x0c']
       else if c = 'v' then ['\x0b']
       else if c = '\n' then []
       else ['\\', c]) ++ uEscCh rest
  | c :: rest => c :: uEscCh rest

/-- `unicode_escape` on strings. -/
def uEsc (s : String) : String := ⟨uEscCh s.data⟩

/-- Is a sexp an atom beginning with `:` (a slot marker, which can never
be a grammar `value`)? -/
def isColonAtom : AclSexp → Bool
  | .atom a => colonStart a
  | _ => false

/-- Python `str(v)` of a visitor value. -/
def pyStr : PVal → String
  | .strV s => s
  | v => reprPVal v

mutual

/-- Realise the `param*` shape on the children following a message head:
each param is a `:`-marked symbol followed by one value.  Returns the
(visited) name/value pairs, the name stripped of its `:` marker, exactly as
`visitACLparam` yields `(name, value)`; `none` when the children do not
have the `param*` shape. -/
def valParams : List AclSexp → Option (List (String × PVal))
  | [] => some []
  | .atom k :: v :: rest =>
      match k.data with
      | ':' :: c1 :: cs =>
          if isColonAtom v then none
          else
            match valParams rest with
            | none => none
            | some prs => some ((⟨c1 :: cs⟩, valOfSexp v) :: prs)
      | _ => none
  | _ => none
termination_by l => sizeOf l
decreasing_by
  all_goals simp
  all_goals omega

/-- The visitor's value visit mapped over a list of children
(`visitListValue` maps the visit over the list's values). -/
def valList : List AclSexp → List PVal
  | [] => []
  | x :: rest => valOfSexp x :: valList rest
termination_by l => sizeOf l
decreasing_by
  all_goals simp
  all_goals omega

/-- `MessageBuilder`'s value visit: atoms are plain strings, STRING tokens
are `unicode_escape`-decoded (`QuotedStr` equality is plain string
equality, so the marker class is not distinguished), parenthesised groups
are nested messages when they have the message shape (the visitor stores a
nested message's lower-cased performative and its params dict) and generic
lists otherwise. -/
def valOfSexp : AclSexp → PVal
  | .atom s => .strV s
  | .lit raw => .strV (uEsc raw)
  | .node (.atom h :: rest) =>
      if colonStart h then
        .listV (.strV h :: valList rest)
      else
        match valParams rest with
        | some prs => .msgV (pyLower h) prs
        | none => .listV (.strV h :: valList rest)
  | .node kids => .listV (valList kids)
termination_by s => sizeOf s
decreasing_by
  all_goals simp
  all_goals omega

end

/-! ## Errors

The source signals failures with `ValueError`/`TypeError` carrying message
strings; the embedding discriminates the raise sites. -/

inductive AclErr where
  /-- parse.py: `ValueError` when ANTLR reports syntax errors (the count is
  the reported error total; grammar-shape violations in this model carry 1). -/
  | syntaxErr (count : Nat)
  /-- visitor.py: `ValueError(f"{perf_l} precisa de: ...")` for missing
  mandatory root slots. -/
  | missing (perf : String) (slots : List String)
  /-- parse_helpers.py: `TypeError`/`ValueError` from `to_aid`/`to_aid_list`. -/
  | notAid (reason : String)
deriving DecidableEq, Repr

/-! ## Parse helpers (parse_helpers.py) -/

/-- `_sequence_to_strings`: a `(sequence ...)` wrapper of length ≥ 2 is
unwrapped; other lists are taken as plain URL lists; a non-list is wrapped
as a singleton. -/
def seqToStrings : PVal → List String
  | .listV (.strV s :: x :: rest) =>
      if pyLower s = "sequence" then (x :: rest).map pyStr
      else (PVal.strV s :: x :: rest).map pyStr
  | .listV vs => vs.map pyStr
  | v => [pyStr v]

/-- The scan over a nested agent-identifier's `user_params` performed by
`to_aid` (`for k, v in msg.user_params.items(): ...`): the last `name` /
`addresses` entries win. -/
def toAidScan (prs : List (String × PVal)) : Option String × List String :=
  prs.foldl
    (fun acc kv =>
      let lk := pyLower kv.1
      if lk = "name" then (some (pyStr kv.2), acc.2)
      else if lk = "addresses" then (acc.1, seqToStrings kv.2)
      else acc)
    (none, [])

/-- `to_aid` from parse_helpers.py: a nested `(agent-identifier ...)`
message is converted to an `Aid`; non-messages raise `TypeError`, a wrong
performative or a missing `:name` raise `ValueError`. -/
def toAid : PVal → Except AclErr Aid
  | .msgV perf prs =>
      if pyLower perf ≠ "agent-identifier" then
        .error (.notAid "Nested message nao e agent-identifier")
      else
        match toAidScan prs with
        | (none, _) => .error (.notAid "agent-identifier sem :name")
        | (some n, addrs) => .ok ⟨n, addrs⟩
  | _ => .error (.notAid "Esperava message agent-identifier")

/-- `to_aid_list` from parse_helpers.py: a single AID, or a list whose
optional leading `set` atom is stripped. -/
def toAidList : PVal → Except AclErr (List Aid)
  | .msgV p prs => (toAid (.msgV p prs)).map (fun a => [a])
  | .listV vs =>
      let vals := match vs with
        | .strV s :: rest => if pyLower s = "set" then rest else PVal.strV s :: rest
        | other => other
      vals.mapM toAid
  | _ => .error (.notAid "Nao consigo converter em lista de AIDs")

/-- Strip `"` characters from both ends (Python `str.strip('"')`). -/
def stripQuoteCh (l : List Char) : List Char :=
  ((l.dropWhile (· = '"')).reverse.dropWhile (· = '"')).reverse

/-- Days per month, as validated by `datetime` construction. -/
def daysInMonth (y mo : Nat) : Nat :=
  if mo = 2 then
    if y % 4 = 0 && (y % 100 ≠ 0 || y % 400 = 0) then 29 else 28
  else if mo = 4 || mo = 6 || mo = 9 || mo = 11 then 30
  else 31

/-- Range validity of a parsed date (strptime plus `datetime` bounds). -/
def dateOk (d : AclDate) : Bool :=
  1 ≤ d.year && d.year ≤ 9999 && 1 ≤ d.month && d.month ≤ 12
    && 1 ≤ d.day && d.day ≤ daysInMonth d.year d.month
    && d.hour ≤ 23 && d.minute ≤ 59 && d.second ≤ 59

/-- Decimal value of a digit run, `none` when any char is not a digit. -/
def digitsVal : List Char → Option Nat
  | [] => some 0
  | l =>
      if l.all Char.isDigit then
        some (l.foldl (fun acc c => acc * 10 + (c.toNat - 48)) 0)
      else none

/-- `strptime(s, "%Y%m%dT%H%M%S")`-style fixed-width parses, one per
accepted FIPA/ISO pattern (`to_datetime`'s format list).  The separators
`sepA`/`sepB` are the literal characters between date and time fields. -/
def parseCompactDate (sepMid : Char) (l : List Char) : Option AclDate :=
  match l with
  | [y1, y2, y3, y4, m1, m2, d1, d2, t, h1, h2, n1, n2, s1, s2] =>
      if t = sepMid then
        match digitsVal [y1, y2, y3, y4], digitsVal [m1, m2], digitsVal [d1, d2],
              digitsVal [h1, h2], digitsVal [n1, n2], digitsVal [s1, s2] with
        | some y, some mo, some d, some h, some n, some s =>
            let dt : AclDate := ⟨y, mo, d, h, n, s⟩
            if dateOk dt then some dt else none
        | _, _, _, _, _, _ => none
      else none
  | _ => none

/-- `strptime(s, "%Y-%m-%dT%H:%M:%S")`. -/
def parseIsoDate (l : List Char) : Option AclDate :=
  match l with
  | [y1, y2, y3, y4, da1, m1, m2, da2, d1, d2, t, h1, h2, c1, n1, n2, c2, s1, s2] =>
      if da1 = '-' && da2 = '-' && t = 'T' && c1 = ':' && c2 = ':' then
        match digitsVal [y1, y2, y3, y4], digitsVal [m1, m2], digitsVal [d1, d2],
              digitsVal [h1, h2], digitsVal [n1, n2], digitsVal [s1, s2] with
        | some y, some mo, some d, some h, some n, some s =>
            let dt : AclDate := ⟨y, mo, d, h, n, s⟩
            if dateOk dt then some dt else none
        | _, _, _, _, _, _ => none
      else none
  | _ => none

/-- `strptime(s, "%Y%m%d")`. -/
def parseBareDate (l : List Char) : Option AclDate :=
  match l with
  | [y1, y2, y3, y4, m1, m2, d1, d2] =>
      match digitsVal [y1, y2, y3, y4], digitsVal [m1, m2], digitsVal [d1, d2] with
      | some y, some mo, some d =>
          let dt : AclDate := ⟨y, mo, d, 0, 0, 0⟩
          if dateOk dt then some dt else none
      | _, _, _ => none
  | _ => none

/-- `to_datetime` from parse_helpers.py: `str(v).strip().strip('"')`, then
the format list `%Y%m%dT%H%M%S`, `%Y%m%dZ%H%M%S`, `%Y-%m-%dT%H:%M:%S`,
`%Y%m%d` in order, `None` when all fail. -/
def toDatetime (v : PVal) : Option AclDate :=
  let s := stripQuoteCh (stripCh (pyStr v).data)
  (parseCompactDate 'T' s).orElse fun _ =>
    (parseCompactDate 'Z' s).orElse fun _ =>
      (parseIsoDate s).orElse fun _ => parseBareDate s

/-! ## Root message construction (visitor.py `visitACLmessage`, depth 1) -/

/-- `MANDATORY_ROOT` from visitor.py. -/
def mandatoryRoot (p : String) : List String :=
  if p = "inform" || p = "request" then ["content"] else []

/-- Python dict assignment `d[k] = v` on an insertion-ordered dict
modelled as an association list. -/
def dictInsert (d : List (String × PVal)) (k : String) (v : PVal) : List (String × PVal) :=
  if d.any (fun kv => kv.1 = k) then d.map (fun kv => if kv.1 = k then (k, v) else kv)
  else d ++ [(k, v)]

/-- Collect visited params into the `params` dict of `visitACLmessage`. -/
def collectParams (prs : List (String × PVal)) : List (String × PVal) :=
  prs.foldl (fun d kv => dictInsert d kv.1 kv.2) []

/-- Dispatch of one named root slot onto the message under construction
(the `for name, val in params.items()` loop body). -/
def applySlot (msg : AclMessage) (name : String) (v : PVal) : Except AclErr AclMessage :=
  let lname := pyLower name
  if lname = "sender" then (toAid v).map (fun a => { msg with sender := some a })
  else if lname = "receiver" then
    (toAidList v).map (fun as => { msg with receivers := msg.receivers ++ as })
  else if lname = "reply-to" then
    (toAidList v).map (fun as => { msg with replyTo := msg.replyTo ++ as })
  else if lname = "content" then .ok { msg with content := some v }
  else if lname = "language" then .ok { msg with language := some (pyStr v) }
  else if lname = "encoding" then .ok { msg with encoding := some (pyStr v) }
  else if lname = "ontology" then .ok { msg with ontology := some (pyStr v) }
  else if lname = "protocol" then .ok { msg with protocol := some (pyStr v) }
  else if lname = "conversation-id" then .ok { msg with conversationId := some (pyStr v) }
  else if lname = "reply-with" then .ok { msg with replyWith := some (pyStr v) }
  else if lname = "in-reply-to" then .ok { msg with inReplyTo := some (pyStr v) }
  else if lname = "reply-by" then .ok { msg with replyBy := toDatetime v }
  else .ok { msg with userParams := dictInsert msg.userParams lname v }

/-- Build the root `AclMessage` from a message-shaped tree: mandatory-slot
check first (`MANDATORY_ROOT.get(perf_l, set()) - params.keys()`), then the
slot dispatch loop.  `_coerce_content` is the identity on the modelled
value space (`QuotedStr` → `str` is invisible once the classes are
merged). -/
def buildRootMsg : AclSexp → Except AclErr AclMessage
  | .node (.atom perf :: kids) =>
      if colonStart perf then .error (.syntaxErr 1)
      else
        match valParams kids with
        | none => .error (.syntaxErr 1)
        | some prs =>
            let perfL := pyLower perf
            let params := collectParams prs
            let missingSlots :=
              (mandatoryRoot perfL).filter (fun k => !(params.any (fun kv => kv.1 = k)))
            if missingSlots.isEmpty then
              params.foldlM (fun msg kv => applySlot msg kv.1 kv.2) { performative := perfL }
            else .error (.missing perfL missingSlots)
  | _ => .error (.syntaxErr 1)

/-- `parse` from parser/parse.py: lex, parse the grammar's `message` rule
over the whole input, then run the visitor.  Any grammar violation is the
`ValueError` raised on a nonzero ANTLR syntax-error count. -/
def parse (raw : String) : Except AclErr AclMessage :=
  match lexAcl raw.data with
  | none => .error (.syntaxErr 1)
  | some toks =>
      match parseSx toks with
      | none => .error (.syntaxErr 1)
      | some (sx, ⟨rest, _⟩) =>
          if rest.isEmpty then buildRootMsg sx else .error (.syntaxErr 1)

/-! ## Conversation manager (runtime/conversation.py)

The manager's `_convs` dict and the `asyncio.Future` completion handles
are modelled as association lists keyed by conversation id: a future
created by `send_request` is identified by its conversation's id and holds
`unset` until resolved (`set_result` / `set_exception(TimeoutError)` fire
only when `not done()`, which makes resolution idempotent).  `on_message`
is the sole mutation entry point and is modelled as a pure state
transition; the `add_done_callback` cleanup runs asynchronously on the
event loop and is not part of the synchronous transition (the REFUSE and
INFORM/FAILURE paths remove the conversation explicitly). -/

/-- Resolution state of one `asyncio.Future` completion handle. -/
inductive FutVal where
  | unset
  | result (m : AclMessage)
  | timeoutErr

/-- `future.done()`. -/
def futDone : FutVal → Bool
  | .unset => false
  | _ => true

/-- `_Conversation` (without its future, which lives in `MgrState.futures`
under the same conversation id). -/
structure Conv where
  convId : String
  state : String := "pending"
  requestMsg : Option AclMessage := none
  replyAgreeRefuse : Option AclMessage := none

/-- The mutable state of a `ConversationManager`. -/
structure MgrState where
  convs : List (String × Conv)
  futures : List (String × FutVal)

/-- Replace the value stored under an existing key. -/
def listSet {α : Type} (l : List (String × α)) (k : String) (v : α) : List (String × α) :=
  l.map fun kv => if kv.1 = k then (k, v) else kv

/-- `dict.pop(k, None)` / `del dict[k]`. -/
def listDrop {α : Type} (l : List (String × α)) (k : String) : List (String × α) :=
  l.filter fun kv => !(kv.1 = k)

/-- Value of the future keyed by `cid` (`unset` for an unknown key). -/
def futLookup (fs : List (String × FutVal)) (cid : String) : FutVal :=
  ((fs.find? fun kv => kv.1 = cid).map (·.2)).getD .unset

/-- `future.set_result(v)` guarded by `done()` at the call sites. -/
def futSet (fs : List (String × FutVal)) (cid : String) (v : FutVal) : List (String × FutVal) :=
  listSet fs cid v

/-- `ConversationManager.on_message` from runtime/conversation.py: ignore
untracked ids; while `pending` only AGREE/REFUSE advance state (REFUSE,
with an unresolved handle, resolves it with the message and pops the
conversation); while `agreed`/`refused` only INFORM/FAILURE resolve the
handle (if unresolved), mark `done` and delete the conversation. -/
def onMessage (st : MgrState) (acl : AclMessage) : MgrState :=
  match acl.conversationId with
  | none => st
  | some cid =>
    if cid = "" then st
    else
      match st.convs.find? fun kv => kv.1 = cid with
      | none => st
      | some (_, conv) =>
        let perf := acl.performativeUpper
        if conv.state = "pending" then
          if perf = "AGREE" || perf = "REFUSE" then
            let conv1 : Conv :=
              { conv with replyAgreeRefuse := some acl,
                          state := if perf = "AGREE" then "agreed" else "refused" }
            let st1 : MgrState := { st with convs := listSet st.convs cid conv1 }
            if perf = "REFUSE" && !futDone (futLookup st1.futures cid) then
              { convs := listDrop st1.convs cid,
                futures := futSet st1.futures cid (.result acl) }
            else st1
          else st
        else if conv.state = "agreed" || conv.state = "refused" then
          if perf = "INFORM" || perf = "FAILURE" then
            let st1 : MgrState :=
              if futDone (futLookup st.futures cid) then st
              else { st with futures := futSet st.futures cid (.result acl) }
            let conv2 : Conv := { conv with state := "done" }
            { convs := listDrop (listSet st1.convs cid conv2) cid, futures := st1.futures }
          else st
        else st

/-- `ConversationManager._on_timeout`: resolve a still-pending handle with
a `TimeoutError` (removal is then the done-callback's job). -/
def onTimeout (st : MgrState) (cid : String) : MgrState :=
  match st.convs.find? fun kv => kv.1 = cid with
  | none => st
  | some _ =>
      if futDone (futLookup st.futures cid) then st
      else { st with futures := futSet st.futures cid .timeoutErr }

/-- The REQUEST message assembled by `send_request` for a fresh
conversation id, and the conversation/future registration it performs. -/
def buildRequest (sender receiver : Aid) (contentStr : String)
    (language ontology protocol convId : String) : AclMessage :=
  { performative := "request", sender := some sender, receivers := [receiver],
    content := some (.strV contentStr), language := some language,
    ontology := some ontology, protocol := some protocol,
    conversationId := some convId, replyWith := some (convId ++ ".req") }

/-- State change of `send_request`: register the pending conversation and
its unresolved future under the generated id. -/
def sendRequestState (st : MgrState) (convId : String) (req : AclMessage) : MgrState :=
  { convs := st.convs ++ [(convId, { convId := convId, requestMsg := some req })],
    futures := st.futures ++ [(convId, .unset)] }

/-! ## SL0 codec (sl0.py)

The AST dataclasses, the hand-written tokenizer/S-expression reader and
the list-to-AST builder.  `Any`-typed positions (`Done.what`,
`Action.act`, …) range over the closed value universe `SlVal`, which also
contains the plain strings and generic lists the lenient parser can
produce. -/

structure ServiceDescription where
  name : Option String := none
  type : Option String := none
  languages : List String := []
  ontologies : List String := []
  protocols : List String := []
  properties : List (String × String) := []
deriving DecidableEq, Repr

structure DfAgentDescription where
  name : Option Aid := none
  services : List ServiceDescription := []
  languages : List String := []
  ontologies : List String := []
  protocols : List String := []
  ownership : List String := []
deriving DecidableEq, Repr

inductive SlVal where
  | svcDesc (sd : ServiceDescription)
  | dfaDesc (d : DfAgentDescription)
  | reg (d : DfAgentDescription)
  | dereg (d : DfAgentDescription)
  | modif (d : DfAgentDescription)
  | search (d : DfAgentDescription) (maxResults : Option Int)
  | action (actor : Aid) (act : SlVal)
  | done (what : SlVal)
  | failure (reason : SlVal)
  | result (what value : SlVal)
  | aid (a : Aid)
  | str (s : String)
  | listV (xs : List SlVal)

/-- `_render_aid`. -/
def renderAid (a : Aid) : String :=
  if !a.addresses.isEmpty then
    "(agent-identifier :name " ++ a.name ++ " :addresses (sequence "
      ++ spaceJoin a.addresses ++ "))"
  else
    "(agent-identifier :name " ++ a.name ++ " :addresses (sequence))"

/-- `_render_sd`. -/
def renderSd (sd : ServiceDescription) : String :=
  "(service-description"
    ++ (match sd.name with | none => "" | some n => " :name " ++ n)
    ++ (match sd.type with | none => "" | some t => " :type " ++ t)
    ++ (if sd.languages.isEmpty then "" else " :languages (set " ++ spaceJoin sd.languages ++ ")")
    ++ (if sd.ontologies.isEmpty then "" else " :ontologies (set " ++ spaceJoin sd.ontologies ++ ")")
    ++ (if sd.protocols.isEmpty then "" else " :protocols (set " ++ spaceJoin sd.protocols ++ ")")
    ++ (if sd.properties.isEmpty then ""
        else " :properties (set "
          ++ spaceJoin (sd.properties.map fun p => "(property :name " ++ p.1 ++ " :value " ++ p.2 ++ ")")
          ++ ")")
    ++ ")"

/-- `_render_dfad` (the `:services` chunk is emitted as `" (sd)"`-pieces
between `" :services (set"` and `")"`). -/
def renderDfad (d : DfAgentDescription) : String :=
  "(df-agent-description"
    ++ (match d.name with | none => "" | some a => " :name " ++ renderAid a)
    ++ (if d.languages.isEmpty then "" else " :languages (set " ++ spaceJoin d.languages ++ ")")
    ++ (if d.ontologies.isEmpty then "" else " :ontologies (set " ++ spaceJoin d.ontologies ++ ")")
    ++ (if d.protocols.isEmpty then "" else " :protocols (set " ++ spaceJoin d.protocols ++ ")")
    ++ (if d.ownership.isEmpty then "" else " :ownership (set " ++ spaceJoin d.ownership ++ ")")
    ++ (if d.services.isEmpty then ""
        else " :services (set" ++ String.join (d.services.map fun sd => " " ++ renderSd sd) ++ ")")
    ++ ")"

/-- Decimal digits of a natural number, least significant first. -/
def natDigitsRev (n : Nat) : List Char :=
  if h : n < 10 then [Char.ofNat (48 + n)]
  else Char.ofNat (48 + n % 10) :: natDigitsRev (n / 10)
decreasing_by
  exact Nat.div_lt_self (by omega) (by omega)

/-- Python `str` of a natural number. -/
def natToStr (n : Nat) : String := ⟨(natDigitsRev n).reverse⟩

/-- Python `str` of an `int`. -/
def intToStr (i : Int) : String :=
  if i < 0 then "-" ++ natToStr (-i).toNat else natToStr i.toNat

/-- Python `repr` of an optional string field. -/
def reprOptStr : Option String → String
  | none => "None"
  | some s => pyReprStr s

/-- Python `repr` of a list of strings. -/
def reprStrList (l : List String) : String :=
  "[" ++ sepJoin ", " (l.map pyReprStr) ++ "]"

/-- Python `repr` of `AgentIdentifier`. -/
def reprAidPy (a : Aid) : String :=
  "AgentIdentifier(name=" ++ pyReprStr a.name ++ ", addresses=" ++ reprStrList a.addresses ++ ")"

/-- Python `repr` of `ServiceDescription`. -/
def reprSdPy (sd : ServiceDescription) : String :=
  "ServiceDescription(name=" ++ reprOptStr sd.name ++ ", type=" ++ reprOptStr sd.type
    ++ ", languages=" ++ reprStrList sd.languages
    ++ ", ontologies=" ++ reprStrList sd.ontologies
    ++ ", protocols=" ++ reprStrList sd.protocols
    ++ ", properties=["
    ++ sepJoin ", " (sd.properties.map fun p => "(" ++ pyReprStr p.1 ++ ", " ++ pyReprStr p.2 ++ ")")
    ++ "])"

/-- Python `repr` of `DfAgentDescription`. -/
def reprDfadPy (d : DfAgentDescription) : String :=
  "DfAgentDescription(name="
    ++ (match d.name with | none => "None" | some a => reprAidPy a)
    ++ ", services=[" ++ sepJoin ", " (d.services.map reprSdPy) ++ "]"
    ++ ", languages=" ++ reprStrList d.languages
    ++ ", ontologies=" ++ reprStrList d.ontologies
    ++ ", protocols=" ++ reprStrList d.protocols
    ++ ", ownership=" ++ reprStrList d.ownership ++ ")"

/-- Python `str`/`repr` of an SL0 value (dataclass reprs; only the
`_render` fallback `str(obj)` for non-AST values and the generic-list
repr ever reach this). -/
def reprSlVal : SlVal → String
  | .svcDesc sd => reprSdPy sd
  | .dfaDesc d => reprDfadPy d
  | .reg d => "Register(dfad=" ++ reprDfadPy d ++ ")"
  | .dereg d => "Deregister(dfad=" ++ reprDfadPy d ++ ")"
  | .modif d => "Modify(dfad=" ++ reprDfadPy d ++ ")"
  | .search d mr =>
      "Search(template=" ++ reprDfadPy d ++ ", max_results="
        ++ (match mr with | none => "None" | some n => intToStr n) ++ ")"
  | .action a act => "Action(actor=" ++ reprAidPy a ++ ", act=" ++ reprSlVal act ++ ")"
  | .done w => "Done(what=" ++ reprSlVal w ++ ")"
  | .failure r => "Failure(reason=" ++ reprSlVal r ++ ")"
  | .result w v => "Result(what=" ++ reprSlVal w ++ ", value=" ++ reprSlVal v ++ ")"
  | .aid a => reprAidPy a
  | .str s => pyReprStr s
  | .listV xs => "[" ++ sepJoin ", " (xs.attach.map fun x => reprSlVal x.1) ++ "]"
termination_by v => sizeOf v
decreasing_by
  all_goals simp
  all_goals try omega
  have := List.sizeOf_lt_of_mem x.2
  omega

/-- `_render` / `dumps` from sl0.py (`str(obj)` fallback for plain
strings and generic lists). -/
def slDumps : SlVal → String
  | .action a act => "(action " ++ renderAid a ++ " " ++ slDumps act ++ ")"
  | .reg d => "(register " ++ renderDfad d ++ ")"
  | .dereg d => "(deregister " ++ renderDfad d ++ ")"
  | .modif d => "(modify " ++ renderDfad d ++ ")"
  | .search d mr =>
      "(search " ++ renderDfad d
        ++ (match mr with | none => "" | some n => " " ++ intToStr n) ++ ")"
  | .done w => "(done " ++ slDumps w ++ ")"
  | .failure r => "(failure " ++ slDumps r ++ ")"
  | .result w v => "(result " ++ slDumps w ++ " " ++ slDumps v ++ ")"
  | .dfaDesc d => renderDfad d
  | .svcDesc sd => renderSd sd
  | .aid a => renderAid a
  | .str s => s
  | .listV xs => reprSlVal (.listV xs)

/-! ### SL0 tokenizer and S-expression reader -/

/-- The quoted-string scan of `_tokenize`: backslash escapes are resolved
in place (`buf.append(s[i+1])`), the closing quote ends the token, and an
unterminated string simply ends at the input's end. -/
def scanSlStr : (l : List Char) → (List Char × { r : List Char // r.length ≤ l.length })
  | [] => ([], ⟨[], by simp⟩)
  | '\\' :: c2 :: rest =>
      match scanSlStr rest with
      | (buf, ⟨r, hr⟩) => (c2 :: buf, ⟨r, by simp; omega⟩)
  | '"' :: rest => ([], ⟨rest, by simp⟩)
  | c2 :: rest =>
      match scanSlStr rest with
      | (buf, ⟨r, hr⟩) => (c2 :: buf, ⟨r, by simp; omega⟩)

/-- Symbol scan of `_tokenize`: a maximal run of characters that are
neither whitespace nor parentheses (a quote inside a symbol is kept). -/
def scanSlSym : (l : List Char) → (List Char × { r : List Char // r.length ≤ l.length })
  | [] => ([], ⟨[], by simp⟩)
  | c :: cs =>
    if isSpaceCh c || c = '(' || c = ')' then ([], ⟨c :: cs, by simp⟩)
    else
      match scanSlSym cs with
      | (tok, ⟨r, hr⟩) => (c :: tok, ⟨r, by simp; omega⟩)

/-- `_tokenize` from sl0.py: parens are their own tokens, quoted strings
are re-wrapped in quotes after escape resolution, everything else splits
on whitespace. -/
def slTokenize : (l : List Char) → List String
  | [] => []
  | c :: cs =>
    if isSpaceCh c then slTokenize cs
    else if c = '(' || c = ')' then String.singleton c :: slTokenize cs
    else if c = '"' then
      match scanSlStr cs with
      | (buf, ⟨rest, _⟩) => ("\"" ++ (⟨buf⟩ : String) ++ "\"") :: slTokenize rest
    else
      match scanSlSym cs with
      | (tok, ⟨rest, hr⟩) => (⟨c :: tok⟩ : String) :: slTokenize rest
termination_by l => l.length
decreasing_by
  · simp
  · simp
  · rename_i h
    simp
    omega
  · simp at hr ⊢
    omega

/-- Nested Python lists produced by `_parse_expr`. -/
inductive SlSexp where
  | atom (s : String)
  | list (xs : List SlSexp)

/-- Is a token a quoted string of length ≥ 2? (`t.startswith('"') and
t.endswith('"') and len(t) >= 2`; if so `_parse_expr` strips the quotes.) -/
def slStripQuotes (t : String) : String :=
  match t.data with
  | '"' :: c :: cs =>
      if (c :: cs).getLast? = some '"' then ⟨(c :: cs).dropLast⟩ else t
  | _ => t

mutual

/-- `_parse_expr` from sl0.py, one expression. -/
def parseSlExpr : (toks : List String) → Option (SlSexp × { r : List String // r.length < toks.length })
  | [] => none
  | t :: rest =>
      if t = "(" then
        match parseSlList rest with
        | none => none
        | some (xs, ⟨r, hr⟩) => some (.list xs, ⟨r, by simp; omega⟩)
      else if t = ")" then none
      else some (.atom (slStripQuotes t), ⟨rest, by simp⟩)
termination_by toks => (toks.length, 0)

/-- `_parse_expr`'s list loop (`while toks[pos] != ")"`), consuming the
closing parenthesis; `none` on an unclosed list. -/
def parseSlList : (toks : List String) → Option (List SlSexp × { r : List String // r.length < toks.length })
  | [] => none
  | t :: ts =>
      if t = ")" then some ([], ⟨ts, by simp⟩)
      else
        match parseSlExpr (t :: ts) with
        | none => none
        | some (x, ⟨r1, h1⟩) =>
          match parseSlList r1 with
          | none => none
          | some (xs, ⟨r2, h2⟩) => some (x :: xs, ⟨r2, by omega⟩)
termination_by toks => (toks.length, 1)

end

/-! ### SL0 AST builder (`_build_ast` and helpers) -/

/-- Python `repr` of a parsed SL0 expression, used inside list reprs. -/
def slStrRepr : SlSexp → String
  | .atom s => pyReprStr s
  | .list xs => "[" ++ sepJoin ", " (xs.attach.map fun x => slStrRepr x.1) ++ "]"
termination_by e => sizeOf e
decreasing_by
  have := List.sizeOf_lt_of_mem x.2
  simp
  omega

/-- Python `str` of a parsed SL0 expression (nested lists of strings). -/
def slStr : SlSexp → String
  | .atom s => s
  | .list xs => "[" ++ sepJoin ", " (xs.attach.map fun x => slStrRepr x.1) ++ "]"

/-- `_extract_sequence`. -/
def extractSequence : SlSexp → List String
  | .list (.atom s :: rest) =>
      if pyLower s = "sequence" then rest.map slStr
      else (SlSexp.atom s :: rest).map slStr
  | .list xs => xs.map slStr
  | e => [slStr e]

/-- `_extract_set`. -/
def extractSet : SlSexp → List String
  | .list (.atom s :: rest) =>
      if pyLower s = "set" then rest.map slStr
      else (SlSexp.atom s :: rest).map slStr
  | .list xs => xs.map slStr
  | e => [slStr e]

/-- The slot loop of `_build_aid` (later `:name`/`:addresses` entries
overwrite earlier ones; a tag without a following value is skipped). -/
def aidScanGo (name : Option String) (addrs : List String) :
    List SlSexp → Option String × List String
  | [] => (name, addrs)
  | .atom tag :: v :: rest =>
      if pyLower tag = ":name" then aidScanGo (some (slStr v)) addrs rest
      else if pyLower tag = ":addresses" then aidScanGo name (extractSequence v) rest
      else aidScanGo name addrs (v :: rest)
  | _ :: rest => aidScanGo name addrs rest

/-- `_build_aid` from sl0.py: a non-list becomes an address-less
identifier named by its text; a list is scanned for `:name`/`:addresses`,
and a missing `:name` is the decode error
`ValueError("agent-identifier sem :name")`. -/
def buildAid : SlSexp → Except String Aid
  | .atom s => .ok ⟨s, []⟩
  | .list l =>
      match aidScanGo none [] (l.drop 1) with
      | (none, _) => .error "agent-identifier sem :name"
      | (some n, addrs) => .ok ⟨n, addrs⟩

/-- The `:name`/`:value` loop over one `(property ...)` item. -/
def propScan (n v : String) : List SlSexp → String × String
  | [] => (n, v)
  | .atom tag :: w :: rest =>
      if pyLower tag = ":name" then propScan (slStr w) v rest
      else if pyLower tag = ":value" then propScan n (slStr w) rest
      else propScan n v (w :: rest)
  | _ :: rest => propScan n v rest

/-- `_extract_properties`. -/
def extractProperties (e : SlSexp) : List (String × String) :=
  let items : List SlSexp :=
    match e with
    | .list (x :: rest) => if pyLower (slStr x) = "set" then rest else x :: rest
    | .list [] => []
    | other => [other]
  items.filterMap fun it =>
    match it with
    | .list (x :: rest) =>
        if pyLower (slStr x) = "property" then some (propScan "" "" rest) else none
    | _ => none

/-- The field loop of `_build_sd`. -/
def sdScan (sd : ServiceDescription) : List SlSexp → ServiceDescription
  | [] => sd
  | .atom tag :: v :: rest =>
      if pyLower tag = ":name" then sdScan { sd with name := some (slStr v) } rest
      else if pyLower tag = ":type" then sdScan { sd with type := some (slStr v) } rest
      else if pyLower tag = ":languages" then sdScan { sd with languages := extractSet v } rest
      else if pyLower tag = ":ontologies" then sdScan { sd with ontologies := extractSet v } rest
      else if pyLower tag = ":protocols" then sdScan { sd with protocols := extractSet v } rest
      else if pyLower tag = ":properties" then
        sdScan { sd with properties := extractProperties v } rest
      else sdScan sd (v :: rest)
  | _ :: rest => sdScan sd rest

/-- `_build_sd`: non-list arguments iterate over characters and never
match a slot tag, yielding the all-default description. -/
def buildSd : SlSexp → ServiceDescription
  | .list (_ :: rest) => sdScan {} rest
  | _ => {}

/-- `_extract_services`. -/
def extractServices (e : SlSexp) : List ServiceDescription :=
  let items : List SlSexp :=
    match e with
    | .list (x :: rest) => if pyLower (slStr x) = "set" then rest else x :: rest
    | .list [] => []
    | other => [other]
  items.map buildSd

/-- The field loop of `_build_dfad` (`:name` converts through
`_build_aid` and propagates its decode error). -/
def dfadScan (d : DfAgentDescription) : List SlSexp → Except String DfAgentDescription
  | [] => .ok d
  | .atom tag :: v :: rest =>
      if pyLower tag = ":name" then
        match buildAid v with
        | .error e => .error e
        | .ok a => dfadScan { d with name := some a } rest
      else if pyLower tag = ":services" then dfadScan { d with services := extractServices v } rest
      else if pyLower tag = ":languages" then dfadScan { d with languages := extractSet v } rest
      else if pyLower tag = ":ontologies" then dfadScan { d with ontologies := extractSet v } rest
      else if pyLower tag = ":protocols" then dfadScan { d with protocols := extractSet v } rest
      else if pyLower tag = ":ownership" then dfadScan { d with ownership := extractSet v } rest
      else dfadScan d (v :: rest)
  | _ :: rest => dfadScan d rest

/-- `_build_dfad`: `ValueError("df-agent-description malformado")` on a
non-list. -/
def buildDfad : SlSexp → Except String DfAgentDescription
  | .list l => dfadScan {} (l.drop 1)
  | _ => .error "df-agent-description malformado"

/-- Python `int(x)` as used for `max_results` (`except Exception: pass`):
an optionally signed digit string after stripping whitespace, `none`
otherwise (including lists). -/
def pyInt : SlSexp → Option Int
  | .list _ => none
  | .atom s =>
      match stripCh s.data with
      | [] => none
      | c :: cs =>
          let ds : List Char := if c = '+' || c = '-' then cs else c :: cs
          let neg : Bool := c = '-'
          if ds.isEmpty || !ds.all Char.isDigit then none
          else
            let n : Nat := ds.foldl (fun acc c => acc * 10 + (c.toNat - 48)) 0
            some (if neg then -(n : Int) else (n : Int))

mutual

/-- `_build_ast` from sl0.py: dispatch on the lower-cased head of a list
(with the arity guards of the source); unknown heads fall back to a
generically converted list, never an error. -/
def buildAst : SlSexp → Except String SlVal
  | .atom s => .ok (.str s)
  | .list [] => .ok (.listV [])
  | .list (e0 :: rest) =>
      let head := pyLower (slStr e0)
      if head = "action" then
        match h9 : rest with
        | a1 :: a2 :: _ =>
            match buildAid a1 with
            | .error e => .error e
            | .ok actor =>
                match buildAst a2 with
                | .error e => .error e
                | .ok act => .ok (.action actor act)
        | _ => buildFallback (e0 :: rest)
      else if head = "register" then
        match h9 : rest with
        | a1 :: _ => (buildDfad a1).map .reg
        | _ => buildFallback (e0 :: rest)
      else if head = "deregister" then
        match h9 : rest with
        | a1 :: _ => (buildDfad a1).map .dereg
        | _ => buildFallback (e0 :: rest)
      else if head = "modify" then
        match h9 : rest with
        | a1 :: _ => (buildDfad a1).map .modif
        | _ => buildFallback (e0 :: rest)
      else if head = "search" then
        match h9 : rest with
        | a1 :: a2 :: _ => (buildDfad a1).map (fun d => .search d (pyInt a2))
        | [a1] => (buildDfad a1).map (fun d => .search d none)
        | _ => buildFallback (e0 :: rest)
      else if head = "done" then
        match h9 : rest with
        | a1 :: _ => (buildAst a1).map .done
        | _ => buildFallback (e0 :: rest)
      else if head = "failure" then
        match h9 : rest with
        | a1 :: _ => (buildAst a1).map .failure
        | _ => buildFallback (e0 :: rest)
      else if head = "result" then
        match h9 : rest with
        | a1 :: a2 :: _ =>
            match buildAst a1 with
            | .error e => .error e
            | .ok w =>
                match buildAst a2 with
                | .error e => .error e
                | .ok v => .ok (.result w v)
        | _ => buildFallback (e0 :: rest)
      else if head = "df-agent-description" then (buildDfad (.list (e0 :: rest))).map .dfaDesc
      else if head = "service-description" then .ok (.svcDesc (buildSd (.list (e0 :: rest))))
      else if head = "agent-identifier" then (buildAid (.list (e0 :: rest))).map .aid
      else buildFallback (e0 :: rest)
termination_by e => sizeOf e
decreasing_by
  all_goals simp
  all_goals try omega
  all_goals rw [h9]
  all_goals omega

/-- The generic fallback `[_build_ast(x) for x in e]`. -/
def buildFallback (l : List SlSexp) : Except String SlVal :=
  (l.attach.mapM fun x => buildAst x.1).map .listV
termination_by sizeOf l
decreasing_by
  have := List.sizeOf_lt_of_mem x.2
  simp
  omega

end

/-- `loads` from sl0.py: tokenize, read one expression, reject leftover
tokens, build the AST. -/
def slLoads (src : String) : Except String SlVal :=
  match parseSlExpr (slTokenize src.data) with
  | none => .error "sl0 sintaxe"
  | some (e, ⟨rest, _⟩) =>
      if rest.isEmpty then buildAst e else .error "Tokens sobrando no fim do SL0."

/-! ## HTTP-MTP transport (transport/http_mtp.py)

Byte strings are modelled as character lists (the payloads the claims
quantify over are ASCII/UTF-8 text; `decode("utf-8", errors="replace")`
is the identity there). -/

/-- Drop an exact prefix, also returning the length bookkeeping needed for
split termination. -/
def dropPre : (sep l : List Char) → Option { r : List Char // r.length + sep.length = l.length }
  | [], l => some ⟨l, by simp⟩
  | _ :: _, [] => none
  | s :: ss, c :: cs =>
      if s = c then
        match dropPre ss cs with
        | none => none
        | some ⟨r, hr⟩ => some ⟨r, by simp; omega⟩
      else none

/-- Sequential left-to-right split on every occurrence of a non-empty
separator (Python `bytes.split(sep)`). -/
def splitGo (sep : List Char) (hne : sep ≠ []) : (l : List Char) → List (List Char)
  | [] => [[]]
  | c :: cs =>
      match dropPre sep (c :: cs) with
      | some ⟨r, hr⟩ => [] :: splitGo sep hne r
      | none =>
          match splitGo sep hne cs with
          | [] => [[c]]
          | chunk :: rest => (c :: chunk) :: rest
termination_by l => l.length
decreasing_by
  · have hs : 0 < sep.length := List.length_pos.mpr hne
    simp at hr ⊢
    omega
  · simp

/-- Python `sep in l` / `l.split(sep)` (an empty separator raises in
Python and cannot occur here: the marker always starts with `--`). -/
def splitOnL (sep l : List Char) : List (List Char) :=
  if hne : sep = [] then [l] else splitGo sep hne l

/-- Substring test (`sep in l`). -/
def containsSub (sep l : List Char) : Bool := 2 ≤ (splitOnL sep l).length

/-- Python `l.split(sep, 1)`: split at the first occurrence only. -/
def splitOnce (sep l : List Char) : Option (List Char × List Char) :=
  match splitOnL sep l with
  | [] => none
  | [_] => none
  | x :: xs => some (x, List.intercalate sep xs)

/-- Strip trailing `\r`/`\n` characters (`body.rstrip(b"\r\n")`). -/
def rstripCRLF (l : List Char) : List Char :=
  (l.reverse.dropWhile fun c => c = '\r' || c = '\n').reverse

/-- Header/body separation of one part: first blank line, preferring a
CRLF pair and falling back to a bare LF pair; headerless parts keep the
whole chunk as body. -/
def splitHdrBody (c : List Char) : List Char × List Char :=
  match splitOnce "\r\n\r\n".data c with
  | some (h, b) => (h, b)
  | none =>
      match splitOnce "\n\n".data c with
      | some (h, b) => (h, b)
      | none => ([], c)

/-- `_split_parts` from http_mtp.py: split the stripped body on the
`--boundary` marker, drop empty/final chunks, unwrap a leading `--` left by
the final marker, separate headers from body and trim the body's trailing
CRLF noise. -/
def splitParts (raw boundary : String) : List (List Char × List Char) :=
  let marker := ("--" ++ boundary).data
  let data := stripCh raw.data
  (splitOnL marker data).filterMap fun chunk =>
    let c := stripCh chunk
    if c.isEmpty || c = ['-', '-'] then none
    else
      let c2 := if listIsPre ['-', '-'] c then lstripCh (c.drop 2) else c
      let (hdr, body) := splitHdrBody c2
      some (hdr, rstripCRLF body)

/-- `_guess_is_envelope`: the body starts (after leading whitespace) with
`<?xml`. -/
def guessIsEnvelope (body : List Char) : Bool := listIsPre "<?xml".data (lstripCh body)

/-- `_guess_is_acl`: the body starts (after leading whitespace) with `(`. -/
def guessIsAcl (body : List Char) : Bool := listIsPre "(".data (lstripCh body)

/-- The `Content-Type`-driven first classification pass (`hdr.lower()`
tested for `application/xml` / `text/plain`, each slot set once, with the
loop's `continue` structure). -/
def headerStage (parts : List (List Char × List Char)) :
    Option (List Char) × Option (List Char) :=
  parts.foldl
    (fun acc part =>
      if containsSub "application/xml".data (part.1.map Char.toLower) && acc.1.isNone then
        (some part.2, acc.2)
      else if containsSub "text/plain".data (part.1.map Char.toLower) && acc.2.isNone then
        (acc.1, some part.2)
      else acc)
    (none, none)

/-- The content-sniffing second pass. -/
def sniffStage (parts : List (List Char × List Char))
    (acc0 : Option (List Char) × Option (List Char)) :
    Option (List Char) × Option (List Char) :=
  parts.foldl
    (fun acc part =>
      if acc.1.isNone && guessIsEnvelope part.2 then (some part.2, acc.2)
      else if acc.2.isNone && guessIsAcl part.2 then (acc.1, some part.2)
      else acc)
    acc0

/-- `_extract_envelope_acl` from http_mtp.py: headers first, then
sniffing, then positional fallback (first part as envelope, last distinct
part as ACL — Python's `is not` identity test modelled by value
inequality), decode+strip, and a final swap when sniffing says the two are
inverted.  Fewer than two parts raises `ValueError`. -/
def extractEnvelopeAcl (raw boundary : String) : Except String (String × String) :=
  let parts := splitParts raw boundary
  if parts.length < 2 then
    .error "multipart inesperado (<2 partes)"
  else
    let s2 := sniffStage parts (headerStage parts)
    let envB : List Char :=
      match s2.1 with
      | some e => e
      | none => ((parts.head?.map (·.2)).getD [])
    let aclB : List Char :=
      match s2.2 with
      | some a => a
      | none =>
          (((parts.reverse.find? fun part => !(part.2 == envB)).map (·.2)).getD
            ((parts.getLast?.map (·.2)).getD []))
    if !guessIsAcl aclB && guessIsEnvelope aclB && guessIsAcl envB then
      .ok (⟨stripCh aclB⟩, ⟨stripCh envB⟩)
    else
      .ok (⟨stripCh envB⟩, ⟨stripCh aclB⟩)

/-- An inbound HTTP request as seen by `_handle_post`. -/
structure HttpRequest where
  contentType : String
  body : String

/-- The HTTP response object. -/
structure HttpResponse where
  status : Nat
  text : String
  contentType : String
deriving DecidableEq, Repr

/-- The boundary-token regex `boundary="?([^";]+)"?` (case-insensitive on
the literal, first match, capture from the original text). -/
def findBoundaryAux : List Char → Option (List Char)
  | [] => none
  | c :: cs =>
      if listIsPre "boundary=".data (List.map Char.toLower (c :: cs)) then
        some ((c :: cs).drop 9)
      else findBoundaryAux cs

/-- Boundary extraction from the `Content-Type` header. -/
def findBoundary (ctype : String) : Option String :=
  match findBoundaryAux ctype.data with
  | none => none
  | some rest =>
      let rest2 := match rest with
        | '"' :: t => t
        | t => t
      let tok := rest2.takeWhile fun c => !(c = '"' || c = ';')
      if tok.isEmpty then none else some ⟨tok⟩

/-- `_handle_post`: the `200 OK`/`"ok"` response is constructed before any
body inspection and returned on every path; when a boundary is present the
raw body and boundary are handed to the detached `_process_raw` task
(second component), otherwise nothing is scheduled. -/
def handlePost (req : HttpRequest) : HttpResponse × Option (String × String) :=
  (⟨200, "ok", "text/plain"⟩,
   match findBoundary req.contentType with
   | none => none
   | some b => some (req.body, b))

/-- The extraction stage of `_process_raw`: a `ValueError` from
`_extract_envelope_acl` is caught, logged with a bounded raw excerpt and
dropped — the function returns before `Envelope.from_xml`, `parse`, the
callback and the inbox are ever reached — so `none` here means the inbound
message is never delivered nor enqueued. -/
def extractStage (raw boundary : String) : Option (String × String) :=
  (extractEnvelopeAcl raw boundary).toOption

/-! ## SL0 round-trip apparatus

The intermediate notions used to state and prove the (amended) SL0
round-trip: which atom strings survive `_tokenize` as a single symbol
token, which AST values render into such atoms, the parse tree the
rendering denotes, its printed and token forms. -/

/-- A character the SL0 symbol scanner keeps inside one token and that the
reader does not reinterpret: not whitespace, not a parenthesis, not a
double quote. -/
def tokOkCh (c : Char) : Bool :=
  !isSpaceCh c && !(c = '(') && !(c = ')') && !(c = '"')

/-- A string that tokenizes back to exactly one symbol token equal to
itself. -/
def tokOk (s : String) : Bool :=
  !s.data.isEmpty && s.data.all tokOkCh

/-- Token-safety of an `Aid` for `_render_aid`. -/
def aidOk (a : Aid) : Bool :=
  tokOk a.name && a.addresses.all tokOk

/-- Token-safety of a `ServiceDescription` for `_render_sd`. -/
def sdOk (sd : ServiceDescription) : Bool :=
  (match sd.name with | none => true | some n => tokOk n)
  && (match sd.type with | none => true | some t => tokOk t)
  && sd.languages.all tokOk && sd.ontologies.all tokOk && sd.protocols.all tokOk
  && sd.properties.all fun p => tokOk p.1 && tokOk p.2

/-- Token-safety of a `DfAgentDescription` for `_render_dfad`. -/
def dfadOk (d : DfAgentDescription) : Bool :=
  (match d.name with | none => true | some a => aidOk a)
  && d.services.all sdOk
  && d.languages.all tokOk && d.ontologies.all tokOk
  && d.protocols.all tokOk && d.ownership.all tokOk

/-- The supported-variant validity of the amended SL0 round-trip:
structured variants whose atom fields are single symbol tokens; a raw
string must itself be one symbol token, and generic Python lists (whose
`dumps` is a Python `repr` that `loads` reads back as symbols) are
excluded. -/
def slValid : SlVal → Bool
  | .svcDesc sd => sdOk sd
  | .dfaDesc d => dfadOk d
  | .reg d => dfadOk d
  | .dereg d => dfadOk d
  | .modif d => dfadOk d
  | .search d _ => dfadOk d
  | .action a act => aidOk a && slValid act
  | .done w => slValid w
  | .failure r => slValid r
  | .result w v => slValid w && slValid v
  | .aid a => aidOk a
  | .str s => tokOk s
  | .listV _ => false

/-- The parse tree denoted by `_render_aid`'s output. -/
def sexpOfAid (a : Aid) : SlSexp :=
  .list [.atom "agent-identifier", .atom ":name", .atom a.name,
    .atom ":addresses", .list (.atom "sequence" :: a.addresses.map .atom)]

/-- The parse tree of a `(set ...)` of symbols. -/
def setSexp (l : List String) : SlSexp :=
  .list (.atom "set" :: l.map .atom)

/-- The parse tree of one `(property :name n :value v)` item. -/
def propSexp (p : String × String) : SlSexp :=
  .list [.atom "property", .atom ":name", .atom p.1, .atom ":value", .atom p.2]

/-- The parse tree denoted by `_render_sd`'s output. -/
def sexpOfSd (sd : ServiceDescription) : SlSexp :=
  .list ([SlSexp.atom "service-description"]
    ++ (match sd.name with | none => [] | some n => [SlSexp.atom ":name", .atom n])
    ++ (match sd.type with | none => [] | some t => [SlSexp.atom ":type", .atom t])
    ++ (if sd.languages.isEmpty then [] else [SlSexp.atom ":languages", setSexp sd.languages])
    ++ (if sd.ontologies.isEmpty then [] else [SlSexp.atom ":ontologies", setSexp sd.ontologies])
    ++ (if sd.protocols.isEmpty then [] else [SlSexp.atom ":protocols", setSexp sd.protocols])
    ++ (if sd.properties.isEmpty then []
        else [SlSexp.atom ":properties", .list (.atom "set" :: sd.properties.map propSexp)]))

/-- The parse tree denoted by `_render_dfad`'s output. -/
def sexpOfDfad (d : DfAgentDescription) : SlSexp :=
  .list ([SlSexp.atom "df-agent-description"]
    ++ (match d.name with | none => [] | some a => [SlSexp.atom ":name", sexpOfAid a])
    ++ (if d.languages.isEmpty then [] else [SlSexp.atom ":languages", setSexp d.languages])
    ++ (if d.ontologies.isEmpty then [] else [SlSexp.atom ":ontologies", setSexp d.ontologies])
    ++ (if d.protocols.isEmpty then [] else [SlSexp.atom ":protocols", setSexp d.protocols])
    ++ (if d.ownership.isEmpty then [] else [SlSexp.atom ":ownership", setSexp d.ownership])
    ++ (if d.services.isEmpty then []
        else [SlSexp.atom ":services", .list (.atom "set" :: d.services.map sexpOfSd)]))

/-- The parse tree denoted by `dumps`' output on a valid value. -/
def sexpOfVal : SlVal → SlSexp
  | .svcDesc sd => sexpOfSd sd
  | .dfaDesc d => sexpOfDfad d
  | .reg d => .list [.atom "register", sexpOfDfad d]
  | .dereg d => .list [.atom "deregister", sexpOfDfad d]
  | .modif d => .list [.atom "modify", sexpOfDfad d]
  | .search d none => .list [.atom "search", sexpOfDfad d]
  | .search d (some n) => .list [.atom "search", sexpOfDfad d, .atom (intToStr n)]
  | .action a act => .list [.atom "action", sexpOfAid a, sexpOfVal act]
  | .done w => .list [.atom "done", sexpOfVal w]
  | .failure r => .list [.atom "failure", sexpOfVal r]
  | .result w v => .list [.atom "result", sexpOfVal w, sexpOfVal v]
  | .aid a => sexpOfAid a
  | .str s => .atom s
  | .listV xs => .atom (reprSlVal (.listV xs))

mutual

/-- Print a parse tree back to text: atoms verbatim, lists parenthesized
with single spaces between items (the shape every `_render` function
emits). -/
def printSexp : SlSexp → String
  | .atom s => s
  | .list xs => "(" ++ printSexpL xs ++ ")"
termination_by e => sizeOf e

/-- Space-join of printed items. -/
def printSexpL : List SlSexp → String
  | [] => ""
  | [x] => printSexp x
  | x :: xs => printSexp x ++ " " ++ printSexpL xs
termination_by xs => sizeOf xs

end

mutual

/-- The token sequence a parse tree reads back from. -/
def flatSexp : SlSexp → List String
  | .atom s => [s]
  | .list xs => "(" :: flatSexpL xs
termination_by e => sizeOf e

/-- Token sequences of the items of a list tree, closed by the list's
`)` token. -/
def flatSexpL : List SlSexp → List String
  | [] => [")"]
  | x :: xs => flatSexp x ++ flatSexpL xs
termination_by xs => sizeOf xs

end

mutual

/-- Every atom of the tree is a single safe symbol token. -/
def goodSexp : SlSexp → Bool
  | .atom s => tokOk s
  | .list xs => goodSexpL xs
termination_by e => sizeOf e

/-- `goodSexp` over a list of trees. -/
def goodSexpL : List SlSexp → Bool
  | [] => true
  | x :: xs => goodSexp x && goodSexpL xs
termination_by xs => sizeOf xs

end

/-- Does tokenization stop cleanly at this point? (empty input, or a
whitespace or parenthesis character up front). -/
def delimFront : List Char → Bool
  | [] => true
  | c :: _ => isSpaceCh c || c = '(' || c = ')'

/-! # Theorems -/

/-- Keys of a Python dict after one assignment: the assigned key is added,
nothing else changes. -/
theorem any_key_dictInsert (d : List (String × PVal)) (k c : String) (v : PVal) :
    ((dictInsert d k v).any fun kv => decide (kv.1 = c))
      = ((d.any fun kv => decide (kv.1 = c)) || decide (k = c)) := by
  have hmap : ((d.map fun kv => if kv.1 = k then (k, v) else kv).any fun kv => decide (kv.1 = c))
      = (d.any fun kv => decide (kv.1 = c)) := by
    induction d with
    | nil => simp
    | cons hd tl ih =>
      by_cases hk : hd.1 = k
      · simp [hk, ih]
      · simp [hk, ih]
  unfold dictInsert
  by_cases hk : (d.any fun kv => decide (kv.1 = k)) = true
  · simp only [hk, if_true, hmap]
    by_cases hkc : k = c
    · subst hkc
      simp [hk]
    · simp [hkc]
  · simp only [hk]
    simp [List.any_append]

/-- Keys of the collected params dict are exactly the visited param keys. -/
theorem any_key_collectParams (prs : List (String × PVal)) (c : String) :
    ((collectParams prs).any fun kv => decide (kv.1 = c))
      = (prs.any fun kv => decide (kv.1 = c)) := by
  have hgen : ∀ (l : List (String × PVal)) (d : List (String × PVal)),
      ((l.foldl (fun d kv => dictInsert d kv.1 kv.2) d).any fun kv => decide (kv.1 = c))
        = ((d.any fun kv => decide (kv.1 = c)) || (l.any fun kv => decide (kv.1 = c))) := by
    intro l
    induction l with
    | nil => simp
    | cons hd tl ih =>
      intro d
      simp only [List.foldl_cons, ih, any_key_dictInsert, List.any_cons]
      cases d.any fun kv => decide (kv.1 = c) <;>
        cases (decide (hd.1 = c)) <;> simp
  simpa using hgen prs []

/-- C6: a grammatically well-formed `inform`/`request` message with no
`content` slot fails the visitor's mandatory-slot check with the
structural error naming the missing slot (`ValueError: "<perf> precisa
de: content"`), and no message value is produced; concretely,
`parse('(inform :sender (agent-identifier :name a))')` fails reporting
that `content` is missing. -/
theorem c6_missing_content_structural :
    (∀ (perf : String) (kids : List AclSexp) (prs : List (String × PVal)),
        colonStart perf = false →
        valParams kids = some prs →
        (pyLower perf = "inform" ∨ pyLower perf = "request") →
        (∀ kv ∈ prs, pyLower kv.1 ≠ "content") →
        buildRootMsg (.node (.atom perf :: kids))
          = .error (.missing (pyLower perf) ["content"]))
  ∧ parse "(inform :sender (agent-identifier :name a))"
      = .error (.missing "inform" ["content"]) := by
  constructor
  · intro perf kids prs h1 h2 h3 h4
    have hnc : (prs.any fun kv => decide (kv.1 = "content")) = false := by
      rw [List.any_eq_false]
      intro kv hkv
      simp only [decide_eq_true_eq]
      intro hk
      exact h4 kv hkv (by rw [hk]; decide)
    have hmand : mandatoryRoot (pyLower perf) = ["content"] := by
      rcases h3 with h | h <;> simp [mandatoryRoot, h]
    simp [buildRootMsg, h1, h2, hmand, any_key_collectParams, hnc]
  · simp [parse, lexAcl, scanSym, scanStr, isSpaceCh, isDelimCh, parseSx, parseSxL,
      buildRootMsg, valParams, valOfSexp, valList, isColonAtom, colonStart, collectParams,
      dictInsert, mandatoryRoot, pyLower, applySlot, toAid, toAidScan, seqToStrings, pyStr,
      Char.toLower]

/-- C6 witness: the general clause applied at the concrete parse tree of
`(inform :sender (agent-identifier :name a))`. -/
theorem c6_missing_content_structural_witness :
    buildRootMsg (.node [.atom "inform", .atom ":sender",
        .node [.atom "agent-identifier", .atom ":name", .atom "a"]])
      = .error (.missing "inform" ["content"]) := by
  have h := c6_missing_content_structural.1 "inform"
    [.atom ":sender", .node [.atom "agent-identifier", .atom ":name", .atom "a"]]
    [("sender", valOfSexp (.node [.atom "agent-identifier", .atom ":name", .atom "a"]))]
    (by decide)
    (by simp [valParams, isColonAtom, colonStart])
    (by left; simp [pyLower, Char.toLower])
    (by
      intro kv hkv
      simp at hkv
      rw [hkv]
      simp [pyLower, Char.toLower])
  simpa [pyLower, Char.toLower] using h

/-- C4: with non-`None` content, a language starting with `fipa-sl` makes
the serializer wrap the rendered content in exactly one extra parenthesis
pair unless the content (after stripping leading whitespace) already starts
with `((`, and double quotes are escaped only after that wrap; without such
a language no parentheses are added.  The last conjunct places the content
fragment inside the full `dumps` output. -/
theorem c4_sl_content_wrap (m : AclMessage) (c : PVal) (h : m.content = some c) :
    (langIsSL m.language = true →
        startsParen2 (lstripCh (contentToStrP c).data) = false →
        contentFrag m = " :content \"" ++ escQ ("(" ++ contentToStrP c ++ ")") ++ "\"")
  ∧ (langIsSL m.language = true →
        startsParen2 (lstripCh (contentToStrP c).data) = true →
        contentFrag m = " :content \"" ++ escQ (contentToStrP c) ++ "\"")
  ∧ (langIsSL m.language = false →
        contentFrag m = " :content \"" ++ escQ (contentToStrP c) ++ "\"")
  ∧ dumps m = "(" ++ m.performativeUpper ++ senderFrag m ++ receiversFrag m ++ replyToFrag m
      ++ contentFrag m ++ optFrag "language" m.language ++ optFrag "encoding" m.encoding
      ++ optFrag "ontology" m.ontology ++ optFrag "protocol" m.protocol
      ++ optFrag "conversation-id" m.conversationId ++ optFrag "reply-with" m.replyWith
      ++ optFrag "in-reply-to" m.inReplyTo ++ replyByFrag m ++ userParamsFrag m ++ ")" := by
  refine ⟨?_, ?_, ?_, rfl⟩
  · intro h1 h2
    simp [contentFrag, h, h1, h2]
  · intro h1 h2
    simp [contentFrag, h, h1, h2]
  · intro h1
    simp [contentFrag, h, h1]

/-- C4 witness: `fipa-sl0` language wraps `(x)` into `((x))`. -/
theorem c4_sl_content_wrap_witness :
    contentFrag { performative := "request", language := some "fipa-sl0",
                  content := some (PVal.strV "(x)") } = " :content \"((x))\"" := by
  have h := (c4_sl_content_wrap
      { performative := "request", language := some "fipa-sl0",
        content := some (PVal.strV "(x)") } (PVal.strV "(x)") rfl).1
    (by simp [langIsSL, pyLower, Char.toLower, listIsPre])
    (by simp [contentToStrP, startsParen2, lstripCh, isSpaceCh])
  rw [h]
  simp [contentToStrP, escQ, cMap]

/-- C9: optional string slots, receiver/reply-to lists, sender and
reply-by emit a parameter only when truthy — an empty string is
indistinguishable from an absent slot in the serialized text — while
content is emitted whenever it is not `None`, the empty string included. -/
theorem c9_truthy_slot_emission :
    (∀ m : AclMessage, dumps { m with language := some "" } = dumps { m with language := none })
  ∧ (∀ m : AclMessage, dumps { m with encoding := some "" } = dumps { m with encoding := none })
  ∧ (∀ m : AclMessage, dumps { m with ontology := some "" } = dumps { m with ontology := none })
  ∧ (∀ m : AclMessage, dumps { m with protocol := some "" } = dumps { m with protocol := none })
  ∧ (∀ m : AclMessage,
      dumps { m with conversationId := some "" } = dumps { m with conversationId := none })
  ∧ (∀ m : AclMessage, dumps { m with replyWith := some "" } = dumps { m with replyWith := none })
  ∧ (∀ m : AclMessage, dumps { m with inReplyTo := some "" } = dumps { m with inReplyTo := none })
  ∧ (∀ m : AclMessage, m.receivers = [] → receiversFrag m = "")
  ∧ (∀ m : AclMessage, m.replyTo = [] → replyToFrag m = "")
  ∧ (∀ m : AclMessage, m.sender = none → senderFrag m = "")
  ∧ (∀ m : AclMessage, m.replyBy = none → replyByFrag m = "")
  ∧ (∀ m : AclMessage,
      dumps { m with content := some (PVal.strV "") } ≠ dumps { m with content := none }) := by
  refine ⟨?_, ?_, ?_, ?_, ?_, ?_, ?_, ?_, ?_, ?_, ?_, ?_⟩
  · intro m
    simp [dumps, AclMessage.performativeUpper, senderFrag, receiversFrag, replyToFrag,
      contentFrag, optFrag, replyByFrag, userParamsFrag, langIsSL]
  · intro m
    simp [dumps, AclMessage.performativeUpper, senderFrag, receiversFrag, replyToFrag,
      contentFrag, optFrag, replyByFrag, userParamsFrag]
  · intro m
    simp [dumps, AclMessage.performativeUpper, senderFrag, receiversFrag, replyToFrag,
      contentFrag, optFrag, replyByFrag, userParamsFrag]
  · intro m
    simp [dumps, AclMessage.performativeUpper, senderFrag, receiversFrag, replyToFrag,
      contentFrag, optFrag, replyByFrag, userParamsFrag]
  · intro m
    simp [dumps, AclMessage.performativeUpper, senderFrag, receiversFrag, replyToFrag,
      contentFrag, optFrag, replyByFrag, userParamsFrag]
  · intro m
    simp [dumps, AclMessage.performativeUpper, senderFrag, receiversFrag, replyToFrag,
      contentFrag, optFrag, replyByFrag, userParamsFrag]
  · intro m
    simp [dumps, AclMessage.performativeUpper, senderFrag, receiversFrag, replyToFrag,
      contentFrag, optFrag, replyByFrag, userParamsFrag]
  · intro m h
    simp [receiversFrag, h]
  · intro m h
    simp [replyToFrag, h]
  · intro m h
    simp [senderFrag, h]
  · intro m h
    simp [replyByFrag, h]
  · intro m heq
    have hlen := congrArg String.length heq
    have key : (dumps { m with content := some (PVal.strV "") }).length
        = (dumps { m with content := none }).length
          + (contentFrag { m with content := some (PVal.strV "") }).length := by
      simp only [dumps, AclMessage.performativeUpper, senderFrag, receiversFrag, replyToFrag,
        contentFrag, optFrag, replyByFrag, userParamsFrag, String.length_append,
        String.length_empty]
      omega
    have hc : 12 ≤ (contentFrag { m with content := some (PVal.strV "") }).length := by
      cases hsl : langIsSL m.language <;>
        simp [contentFrag, contentToStrP, startsParen2, lstripCh, escQ, cMap, hsl,
          String.length_append, String.length]
    rw [key] at hlen
    omega

/-- C9 witness: the empty-string/none indistinguishability applied at a
concrete message, and the content exception at the same message. -/
theorem c9_truthy_slot_emission_witness :
    dumps { performative := "inform", language := some "" }
      = dumps ({ performative := "inform" } : AclMessage)
  ∧ dumps { performative := "inform", content := some (PVal.strV "") }
      ≠ dumps ({ performative := "inform" } : AclMessage) := by
  constructor
  · exact c9_truthy_slot_emission.1 { performative := "inform" }
  · exact c9_truthy_slot_emission.2.2.2.2.2.2.2.2.2.2.2 { performative := "inform" }

/-- C1 counterexample: for the message
`AclMessage(performative="inform", content='"hi"')` — a valid message whose
content is a quote-surrounded string — `parse(dumps(m))` succeeds but
returns content `hi`: `_content_to_str` strips the surrounding quotes, so
the round trip is not content-preserving even though no JADE wrap is
involved (`language` unset). -/
theorem c1_roundtrip_counterexample :
    parse (dumps { performative := "inform", content := some (PVal.strV "\"hi\"") })
      = .ok { performative := "inform", content := some (PVal.strV "hi") }
  ∧ langIsSL (none : Option String) = false
  ∧ PVal.strV "hi" ≠ PVal.strV "\"hi\"" := by
  refine ⟨?_, rfl, by simp⟩
  simp [dumps, AclMessage.performativeUpper, normPerformative, stripCh, rstripCh, lstripCh,
    isSpaceCh, senderFrag, receiversFrag, replyToFrag, contentFrag, contentToStrP, langIsSL,
    optFrag, replyByFrag, userParamsFrag, escQ, cMap, startsParen2,
    parse, lexAcl, scanSym, scanStr, isDelimCh, parseSx, parseSxL,
    buildRootMsg, valParams, valOfSexp, valList, isColonAtom, colonStart, collectParams,
    dictInsert, mandatoryRoot, pyLower, applySlot, uEsc, uEscCh, Char.toLower, Char.toUpper]

/-- Dropping a key leaves no entry under that key. -/
theorem any_listDrop {α : Type} (l : List (String × α)) (k : String) :
    ((listDrop l k).any fun kv => kv.1 = k) = false := by
  induction l with
  | nil => simp [listDrop]
  | cons hd tl ih =>
    by_cases hk : hd.1 = k
    · simpa [listDrop, hk] using ih
    · simpa [listDrop, hk] using ih

/-- Setting an existing key makes the first entry under it hold the new
value. -/
theorem futLookup_futSet (fs : List (String × FutVal)) (cid : String) (v : FutVal)
    (h : ∃ v0, (cid, v0) ∈ fs) :
    futLookup (futSet fs cid v) cid = v := by
  induction fs with
  | nil => simp at h
  | cons hd tl ih =>
    by_cases hk : hd.1 = cid
    · simp [futSet, listSet, futLookup, hk, List.find?]
    · obtain ⟨v0, hv0⟩ := h
      rcases List.mem_cons.mp hv0 with he | ht
      · exact absurd (congrArg Prod.fst he.symm) hk
      · have ih2 := ih ⟨v0, ht⟩
        simp [futSet, listSet, futLookup, hk, List.find?] at ih2 ⊢
        exact ih2

/-- C2: delivering a REFUSE for a tracked conversation in state `pending`
whose completion handle is unresolved resolves that handle with exactly the
REFUSE message and removes the conversation from the manager's index —
refusal is terminal, the id is no longer tracked. -/
theorem c2_refuse_resolves_and_removes (st : MgrState) (acl : AclMessage) (cid : String)
    (conv : Conv)
    (hcid : acl.conversationId = some cid) (hne : cid ≠ "")
    (htrack : (st.convs.find? fun kv => kv.1 = cid) = some (cid, conv))
    (hpend : conv.state = "pending")
    (hperf : acl.performativeUpper = "REFUSE")
    (hfut : ∃ v0, (cid, v0) ∈ st.futures)
    (hundone : futDone (futLookup st.futures cid) = false) :
    (((onMessage st acl).convs.any fun kv => kv.1 = cid) = false)
  ∧ futLookup (onMessage st acl).futures cid = .result acl := by
  have hmain : onMessage st acl =
      { convs := listDrop (listSet st.convs cid
          { conv with replyAgreeRefuse := some acl, state := "refused" }) cid,
        futures := futSet st.futures cid (.result acl) } := by
    simp [onMessage, hcid, hne, htrack, hpend, hperf, hundone]
  rw [hmain]
  exact ⟨any_listDrop _ _, futLookup_futSet _ _ _ hfut⟩

/-- C2 witness: a freshly registered conversation (as `send_request`
leaves it) fed a REFUSE reply. -/
theorem c2_refuse_resolves_and_removes_witness :
    let req := buildRequest ⟨"a", []⟩ ⟨"b", []⟩ "c" "fipa-sl0" "default" "fipa-request" "a1"
    let st := sendRequestState ⟨[], []⟩ "a1" req
    let refuseMsg : AclMessage := { performative := "refuse", conversationId := some "a1" }
    (((onMessage st refuseMsg).convs.any fun kv => kv.1 = "a1") = false)
  ∧ futLookup (onMessage st refuseMsg).futures "a1" = .result refuseMsg := by
  exact c2_refuse_resolves_and_removes _ _ "a1"
    { convId := "a1",
      requestMsg := some (buildRequest ⟨"a", []⟩ ⟨"b", []⟩ "c" "fipa-sl0" "default"
        "fipa-request" "a1") }
    rfl (by decide)
    (by simp [sendRequestState, List.find?])
    rfl
    (by simp [AclMessage.performativeUpper, normPerformative, stripCh, rstripCh, lstripCh,
      isSpaceCh, Char.toUpper])
    ⟨.unset, by simp [sendRequestState]⟩
    (by simp [sendRequestState, futLookup, futDone, List.find?])

/-- The `_build_aid` slot scan never sets a name when no `:name` tag is
present. -/
theorem aidScanGo_no_name (name : Option String) (addrs : List String) (l : List SlSexp)
    (h : ∀ s, SlSexp.atom s ∈ l → pyLower s ≠ ":name") :
    (aidScanGo name addrs l).1 = name := by
  induction name, addrs, l using aidScanGo.induct with
  | case1 name addrs => simp [aidScanGo]
  | case2 name addrs tag v rest htag ih =>
    exact absurd htag (h tag (by simp))
  | case3 name addrs tag v rest htag haddr ih =>
    rw [aidScanGo]
    simp [htag, haddr]
    exact ih (fun s hs => h s (by simp at hs ⊢; tauto))
  | case4 name addrs tag v rest htag haddr ih =>
    rw [aidScanGo]
    simp [htag, haddr]
    exact ih (fun s hs => h s (by simp at hs ⊢; tauto))
  | case5 name addrs x rest hx ih =>
    rw [aidScanGo]
    · exact ih (fun s hs => h s (List.mem_cons_of_mem x hs))
    · exact hx

/-- The `to_aid` scan over a nested message's params never sets a name
when no `name` key is present. -/
theorem toAidScan_no_name (prs : List (String × PVal))
    (h : ∀ kv ∈ prs, pyLower kv.1 ≠ "name") :
    (toAidScan prs).1 = none := by
  have hgen : ∀ (l : List (String × PVal)) (acc : Option String × List String),
      (∀ kv ∈ l, pyLower kv.1 ≠ "name") →
      (l.foldl
        (fun acc kv =>
          if pyLower kv.1 = "name" then (some (pyStr kv.2), acc.2)
          else if pyLower kv.1 = "addresses" then (acc.1, seqToStrings kv.2)
          else acc)
        acc).1 = acc.1 := by
    intro l
    induction l with
    | nil => intro acc h2; simp
    | cons hd tl ih =>
      intro acc h2
      rw [List.foldl_cons]
      have hname : ¬(pyLower hd.1 = "name") := h2 hd (by simp)
      by_cases haddr : pyLower hd.1 = "addresses" <;>
        simp only [hname, haddr, if_true, if_false, ite_false, ite_true] <;>
        exact ih _ (fun kv hkv => h2 kv (List.mem_cons_of_mem hd hkv))
  exact hgen prs (none, []) h

/-- C8: both agent-identifier extractors require a `:name`: the SL0
`_build_aid` on any list form with no `:name` tag, and `to_aid` on any
nested `agent-identifier` ACL message with no `name` param, fail with the
decode error `agent-identifier sem :name`; when the name is present both
succeed, returning that name together with the address list normalized
from its `(sequence ...)` wrapper. -/
theorem c8_aid_requires_name :
    (∀ l : List SlSexp, (∀ s, SlSexp.atom s ∈ l → pyLower s ≠ ":name") →
        buildAid (.list l) = .error "agent-identifier sem :name")
  ∧ (∀ hd : SlSexp, ∀ n : String, ∀ av : SlSexp,
        buildAid (.list [hd, .atom ":name", .atom n, .atom ":addresses", av])
          = .ok ⟨n, extractSequence av⟩)
  ∧ (∀ hd : SlSexp, ∀ n : String,
        buildAid (.list [hd, .atom ":name", .atom n]) = .ok ⟨n, []⟩)
  ∧ (∀ urls : List String,
        extractSequence (.list (.atom "sequence" :: urls.map SlSexp.atom)) = urls)
  ∧ (∀ (perf : String) (prs : List (String × PVal)),
        pyLower perf = "agent-identifier" →
        (∀ kv ∈ prs, pyLower kv.1 ≠ "name") →
        toAid (.msgV perf prs) = .error (.notAid "agent-identifier sem :name"))
  ∧ (∀ (perf : String) (n av : PVal), pyLower perf = "agent-identifier" →
        toAid (.msgV perf [("name", n), ("addresses", av)])
          = .ok ⟨pyStr n, seqToStrings av⟩)
  ∧ (∀ (u : String) (urls : List String),
        seqToStrings (.listV (.strV "sequence" :: (u :: urls).map PVal.strV)) = u :: urls) := by
  refine ⟨?_, ?_, ?_, ?_, ?_, ?_, ?_⟩
  · intro l h
    simp only [buildAid]
    rcases hscan : aidScanGo none [] (List.drop 1 l) with ⟨n0, a0⟩
    have hn0 := aidScanGo_no_name none [] (List.drop 1 l)
      (fun s hs => h s (List.mem_of_mem_drop hs))
    rw [hscan] at hn0
    simp at hn0
    subst hn0
    rfl
  · intro hd n av
    simp [buildAid, aidScanGo, pyLower, Char.toLower, slStr]
  · intro hd n
    simp [buildAid, aidScanGo, pyLower, Char.toLower, slStr]
  · intro urls
    simp [extractSequence, pyLower, Char.toLower]
    induction urls with
    | nil => simp
    | cons u t ih => simp [slStr, ih]
  · intro perf prs hperf h
    simp only [toAid]
    rw [hperf]
    rcases hscan : toAidScan prs with ⟨n0, a0⟩
    have hn0 := toAidScan_no_name prs h
    rw [hscan] at hn0
    simp at hn0
    subst hn0
    simp
  · intro perf n av hperf
    simp only [toAid]
    rw [hperf]
    simp [toAidScan, pyLower, Char.toLower]
  · intro u urls
    simp [seqToStrings, pyLower, Char.toLower, pyStr]
    induction urls with
    | nil => simp
    | cons x t ih => simp [pyStr, ih]

/-- C8 witness: the SL0 and ACL extractors applied at concrete
identifier forms, with and without `:name`. -/
theorem c8_aid_requires_name_witness :
    buildAid (.list [.atom "agent-identifier", .atom ":addresses",
        .list [.atom "sequence", .atom "http://x"]])
      = .error "agent-identifier sem :name"
  ∧ buildAid (.list [.atom "agent-identifier", .atom ":name", .atom "a", .atom ":addresses",
        .list [.atom "sequence", .atom "http://x"]])
      = .ok ⟨"a", ["http://x"]⟩
  ∧ toAid (.msgV "agent-identifier" [("addresses", .listV [.strV "sequence", .strV "u"])])
      = .error (.notAid "agent-identifier sem :name")
  ∧ toAid (.msgV "agent-identifier" [("name", .strV "b"), ("addresses",
        .listV [.strV "sequence", .strV "u"])])
      = .ok ⟨"b", ["u"]⟩ := by
  refine ⟨?_, ?_, ?_, ?_⟩
  · exact c8_aid_requires_name.1 _
      (by intro s hs; simp at hs; rcases hs with h | h <;>
        simp [h, pyLower, Char.toLower])
  · have h := c8_aid_requires_name.2.1 (.atom "agent-identifier") "a"
      (.list [.atom "sequence", .atom "http://x"])
    rw [h]
    simp [extractSequence, pyLower, Char.toLower, slStr]
  · exact c8_aid_requires_name.2.2.2.2.1 "agent-identifier" _
      (by simp [pyLower, Char.toLower])
      (by intro kv hkv; simp at hkv; rw [hkv]; simp [pyLower, Char.toLower])
  · have h := c8_aid_requires_name.2.2.2.2.2.1 "agent-identifier" (.strV "b")
      (.listV [.strV "sequence", .strV "u"]) (by simp [pyLower, Char.toLower])
    rw [h]
    simp [seqToStrings, pyLower, Char.toLower, pyStr]

/-- XML and ACL sniffing are mutually exclusive: a body cannot start with
both `<?xml` and `(`. -/
theorem guess_exclusive (b : List Char) :
    guessIsEnvelope b = true → guessIsAcl b = false := by
  unfold guessIsEnvelope guessIsAcl
  cases h : lstripCh b with
  | nil => intro he; simp [listIsPre] at he
  | cons c t =>
    intro he
    simp [listIsPre] at he ⊢
    obtain ⟨h1, -⟩ := he
    intro hc
    rw [← hc] at h1
    exact absurd h1 (by decide)

/-- A filter returning a singleton pins down `find?`. -/
theorem find?_of_filter_singleton {α : Type} (p : α → Bool) (l : List α) (x : α)
    (h : l.filter p = [x]) : l.find? p = some x := by
  induction l with
  | nil => simp at h
  | cons hd tl ih =>
    by_cases hp : p hd
    · rw [List.filter_cons_of_pos hp] at h
      rw [List.find?_cons_of_pos _ hp]
      simp at h
      simp [h.1]
    · rw [List.filter_cons_of_neg hp] at h
      rw [List.find?_cons_of_neg _ hp]
      exact ih h

/-- Characterisation of the sniffing pass: the two slots fill
independently with the first matching body (XML and ACL sniffs never
overlap). -/
theorem sniffStage_char (parts : List (List Char × List Char))
    (acc : Option (List Char) × Option (List Char)) :
    sniffStage parts acc
      = (acc.1.orElse fun _ => (parts.find? fun p => guessIsEnvelope p.2).map (·.2),
         acc.2.orElse fun _ => (parts.find? fun p => guessIsAcl p.2).map (·.2)) := by
  induction parts generalizing acc with
  | nil => simp [sniffStage]
  | cons hd tl ih =>
    obtain ⟨a1, a2⟩ := acc
    rw [sniffStage, List.foldl_cons, ← sniffStage]
    cases hge : guessIsEnvelope hd.2 <;> cases hga : guessIsAcl hd.2
    · cases a1 <;> cases a2 <;>
        simp [ih, hge, hga, List.find?_cons, Option.orElse]
    · cases a1 <;> cases a2 <;>
        simp [ih, hge, hga, List.find?_cons, Option.orElse]
    · cases a1 <;> cases a2 <;>
        simp [ih, hge, hga, List.find?_cons, Option.orElse]
    · exact absurd hga (by simp [guess_exclusive hd.2 hge])

/-- Characterisation of the header pass under non-contradictory headers:
each slot fills with the body of the first part labelled for it. -/
theorem headerStage_char (parts : List (List Char × List Char))
    (hx : ∀ p ∈ parts,
      ¬(containsSub "application/xml".data (p.1.map Char.toLower) = true
        ∧ containsSub "text/plain".data (p.1.map Char.toLower) = true)) :
    headerStage parts
      = ((parts.find? fun p =>
            containsSub "application/xml".data (p.1.map Char.toLower)).map (·.2),
         (parts.find? fun p =>
            containsSub "text/plain".data (p.1.map Char.toLower)).map (·.2)) := by
  have hgen : ∀ (l : List (List Char × List Char))
      (acc : Option (List Char) × Option (List Char)),
      (∀ p ∈ l,
        ¬(containsSub "application/xml".data (p.1.map Char.toLower) = true
          ∧ containsSub "text/plain".data (p.1.map Char.toLower) = true)) →
      l.foldl
        (fun acc part =>
          if containsSub "application/xml".data (part.1.map Char.toLower) && acc.1.isNone then
            (some part.2, acc.2)
          else if containsSub "text/plain".data (part.1.map Char.toLower) && acc.2.isNone then
            (acc.1, some part.2)
          else acc)
        acc
      = (acc.1.orElse fun _ => (l.find? fun p =>
            containsSub "application/xml".data (p.1.map Char.toLower)).map (·.2),
         acc.2.orElse fun _ => (l.find? fun p =>
            containsSub "text/plain".data (p.1.map Char.toLower)).map (·.2)) := by
    intro l
    induction l with
    | nil => simp
    | cons hd tl ih =>
      intro acc hacc
      obtain ⟨a1, a2⟩ := acc
      have htl : ∀ p ∈ tl,
          ¬(containsSub "application/xml".data (p.1.map Char.toLower) = true
            ∧ containsSub "text/plain".data (p.1.map Char.toLower) = true) := by
        intro p hp
        exact hacc p (List.mem_cons_of_mem hd hp)
      rw [List.foldl_cons, ih _ htl]
      cases hge : containsSub "application/xml".data (hd.1.map Char.toLower) <;>
        cases hga : containsSub "text/plain".data (hd.1.map Char.toLower)
      · simp [hge, hga, List.find?_cons, Option.orElse]
      · cases a2 <;> simp [hge, hga, List.find?_cons, Option.orElse]
      · cases a1 <;> simp [hge, hga, List.find?_cons, Option.orElse]
      · exact absurd ⟨hge, hga⟩ (hacc hd (List.mem_cons_self hd tl))
  exact hgen parts (none, none) hx

/-- C3 amended: with at least two parts, exactly one XML-sniffing body,
exactly one `(`-sniffing body, and any `Content-Type` labels consistent
with the bodies they label, extraction returns exactly that pair — in
particular independent of part order, of missing sub-part headers, and of
CRLF versus bare LF header/body separation (the hypotheses quantify over
every raw body whose split has this shape). -/
theorem c3_multipart_tolerant_extraction (raw boundary : String)
    (envP aclP : List Char × List Char)
    (h2 : 2 ≤ (splitParts raw boundary).length)
    (henv : (splitParts raw boundary).filter (fun p => guessIsEnvelope p.2) = [envP])
    (hacl : (splitParts raw boundary).filter (fun p => guessIsAcl p.2) = [aclP])
    (hhdr : ∀ p ∈ splitParts raw boundary,
      (containsSub "application/xml".data (p.1.map Char.toLower) = true →
        guessIsEnvelope p.2 = true)
      ∧ (containsSub "text/plain".data (p.1.map Char.toLower) = true →
        guessIsAcl p.2 = true)) :
    extractEnvelopeAcl raw boundary = .ok (⟨stripCh envP.2⟩, ⟨stripCh aclP.2⟩) := by
  have henvP : guessIsEnvelope envP.2 = true := by
    have : envP ∈ (splitParts raw boundary).filter fun p => guessIsEnvelope p.2 := by
      rw [henv]; exact List.mem_singleton_self envP
    exact (List.mem_filter.mp this).2
  have haclP : guessIsAcl aclP.2 = true := by
    have : aclP ∈ (splitParts raw boundary).filter fun p => guessIsAcl p.2 := by
      rw [hacl]; exact List.mem_singleton_self aclP
    exact (List.mem_filter.mp this).2
  have huniqE : ∀ q ∈ splitParts raw boundary, guessIsEnvelope q.2 = true → q = envP := by
    intro q hq hgq
    have : q ∈ (splitParts raw boundary).filter fun p => guessIsEnvelope p.2 :=
      List.mem_filter.mpr ⟨hq, hgq⟩
    rw [henv] at this
    simpa using this
  have huniqA : ∀ q ∈ splitParts raw boundary, guessIsAcl q.2 = true → q = aclP := by
    intro q hq hgq
    have : q ∈ (splitParts raw boundary).filter fun p => guessIsAcl p.2 :=
      List.mem_filter.mpr ⟨hq, hgq⟩
    rw [hacl] at this
    simpa using this
  have hxcons : ∀ p ∈ splitParts raw boundary,
      ¬(containsSub "application/xml".data (p.1.map Char.toLower) = true
        ∧ containsSub "text/plain".data (p.1.map Char.toLower) = true) := by
    intro p hp ⟨hxml, hplain⟩
    have hge := (hhdr p hp).1 hxml
    have hga := (hhdr p hp).2 hplain
    rw [guess_exclusive p.2 hge] at hga
    exact absurd hga (by simp)
  have hfindE : ((splitParts raw boundary).find? fun p => guessIsEnvelope p.2) = some envP :=
    find?_of_filter_singleton _ _ _ henv
  have hfindA : ((splitParts raw boundary).find? fun p => guessIsAcl p.2) = some aclP :=
    find?_of_filter_singleton _ _ _ hacl
  have hh1 : (headerStage (splitParts raw boundary)).1 = none
      ∨ (headerStage (splitParts raw boundary)).1 = some envP.2 := by
    rw [headerStage_char _ hxcons]
    cases hfx : ((splitParts raw boundary).find? fun p =>
        containsSub "application/xml".data (p.1.map Char.toLower)) with
    | none => left; simp
    | some q =>
      right
      have hqmem := List.mem_of_find?_eq_some hfx
      have hqprop := List.find?_some hfx
      have hgq := (hhdr q hqmem).1 hqprop
      have := huniqE q hqmem hgq
      subst this
      simp
  have hh2 : (headerStage (splitParts raw boundary)).2 = none
      ∨ (headerStage (splitParts raw boundary)).2 = some aclP.2 := by
    rw [headerStage_char _ hxcons]
    cases hfx : ((splitParts raw boundary).find? fun p =>
        containsSub "text/plain".data (p.1.map Char.toLower)) with
    | none => left; simp
    | some q =>
      right
      have hqmem := List.mem_of_find?_eq_some hfx
      have hqprop := List.find?_some hfx
      have hgq := (hhdr q hqmem).2 hqprop
      have := huniqA q hqmem hgq
      subst this
      simp
  have hs2 : sniffStage (splitParts raw boundary) (headerStage (splitParts raw boundary))
      = (some envP.2, some aclP.2) := by
    rcases hh1 with h | h <;> rcases hh2 with h2 | h2 <;>
      simp [sniffStage_char, hfindE, hfindA, h, h2, Option.orElse]
  unfold extractEnvelopeAcl
  rw [if_neg (by omega)]
  rw [hs2]
  simp only
  rw [haclP]
  simp

set_option maxHeartbeats 2000000 in
/-- C3 witness: the amended theorem applied to a concrete reordered body
whose parts carry no `Content-Type` headers on the XML/ACL parts and whose
first part is labelled `text/plain` consistently. -/
theorem c3_multipart_tolerant_extraction_witness :
    extractEnvelopeAcl "--B\n\n(inform)\n--B\n\n<?xml v\n--B--" "B" = .ok ("<?xml v", "(inform)") := by
  have h := c3_multipart_tolerant_extraction "--B\n\n(inform)\n--B\n\n<?xml v\n--B--" "B"
    ("".data, "<?xml v".data) ("".data, "(inform)".data)
    (by simp [splitParts, splitOnL, splitGo, dropPre, stripCh, lstripCh, rstripCh, isSpaceCh,
      splitHdrBody, splitOnce, rstripCRLF, listIsPre])
    (by simp [splitParts, splitOnL, splitGo, dropPre, stripCh, lstripCh, rstripCh, isSpaceCh,
      splitHdrBody, splitOnce, rstripCRLF, listIsPre, guessIsEnvelope, guessIsAcl])
    (by simp [splitParts, splitOnL, splitGo, dropPre, stripCh, lstripCh, rstripCh, isSpaceCh,
      splitHdrBody, splitOnce, rstripCRLF, listIsPre, guessIsEnvelope, guessIsAcl])
    (by
      intro p hp
      simp [splitParts, splitOnL, splitGo, dropPre, stripCh, lstripCh, rstripCh, isSpaceCh,
        splitHdrBody, splitOnce, rstripCRLF, listIsPre] at hp
      rcases hp with h | h <;>
        simp [h, containsSub, splitOnL, splitGo, dropPre, guessIsEnvelope, guessIsAcl,
          listIsPre, lstripCh, isSpaceCh])
  simpa [stripCh, lstripCh, rstripCh, isSpaceCh] using h

set_option maxHeartbeats 4000000 in
/-- C3 counterexample: a three-part body satisfying the claim's hypotheses
(at least two parts, exactly one part sniffing as XML, exactly one other
sniffing as a parenthesised ACL string) on which extraction nevertheless
returns the junk part as the ACL text: its `Content-Type: text/plain`
header captures the ACL slot in the header pass even though its body is
not the parenthesised part.
Hypotheses of the claim hold, conclusion fails. -/
theorem c3_counterexample :
    (2 ≤ (splitParts
      "--B\r\nContent-Type: text/plain\r\n\r\njunk\r\n--B\r\n\r\n<?xml version\r\n--B\r\n\r\n(acl)\r\n--B--"
      "B").length)
  ∧ ((splitParts
      "--B\r\nContent-Type: text/plain\r\n\r\njunk\r\n--B\r\n\r\n<?xml version\r\n--B\r\n\r\n(acl)\r\n--B--"
      "B").filter fun p => guessIsEnvelope p.2) = [("".data, "<?xml version".data)]
  ∧ ((splitParts
      "--B\r\nContent-Type: text/plain\r\n\r\njunk\r\n--B\r\n\r\n<?xml version\r\n--B\r\n\r\n(acl)\r\n--B--"
      "B").filter fun p => guessIsAcl p.2) = [("".data, "(acl)".data)]
  ∧ extractEnvelopeAcl
      "--B\r\nContent-Type: text/plain\r\n\r\njunk\r\n--B\r\n\r\n<?xml version\r\n--B\r\n\r\n(acl)\r\n--B--"
      "B" = .ok ("<?xml version", "junk")
  ∧ ("junk" : String) ≠ "(acl)" := by
  refine ⟨?_, ?_, ?_, ?_, by decide⟩ <;>
    simp [splitParts, splitOnL, splitGo, dropPre, stripCh, lstripCh, rstripCh, isSpaceCh,
      splitHdrBody, splitOnce, rstripCRLF, listIsPre, extractEnvelopeAcl, headerStage,
      sniffStage, containsSub, guessIsEnvelope, guessIsAcl, List.intercalate, Char.toLower]

/-- C7: a body splitting into fewer than two parts is a framing error:
`_extract_envelope_acl` raises, `_process_raw` catches and drops the
message before any delivery, and the HTTP response — built before any body
inspection — is `200 OK` with body `"ok"` on every request, whatever the
parse outcome. -/
theorem c7_framing_error_dropped_still_200 :
    (∀ raw boundary : String, (splitParts raw boundary).length < 2 →
        extractEnvelopeAcl raw boundary = .error "multipart inesperado (<2 partes)"
        ∧ extractStage raw boundary = none)
  ∧ (∀ req : HttpRequest,
        (handlePost req).1.status = 200 ∧ (handlePost req).1.text = "ok") := by
  constructor
  · intro raw boundary h
    have he : extractEnvelopeAcl raw boundary = .error "multipart inesperado (<2 partes)" := by
      unfold extractEnvelopeAcl
      rw [if_pos h]
    exact ⟨he, by simp [extractStage, he, Except.toOption]⟩
  · intro req
    exact ⟨rfl, rfl⟩

/-- C7 witness: a one-part body is dropped while the response is still
`200 OK` / `"ok"`. -/
theorem c7_framing_error_dropped_still_200_witness :
    extractStage "no parts here" "B" = none
  ∧ (handlePost ⟨"multipart/mixed; boundary=\"B\"", "no parts here"⟩).1.status = 200
  ∧ (handlePost ⟨"multipart/mixed; boundary=\"B\"", "no parts here"⟩).1.text = "ok" := by
  refine ⟨?_, ?_, ?_⟩
  · exact (c7_framing_error_dropped_still_200.1 "no parts here" "B"
      (by simp [splitParts, splitOnL, splitGo, dropPre, stripCh, lstripCh, rstripCh, isSpaceCh,
        splitHdrBody, splitOnce, rstripCRLF])).2
  · exact (c7_framing_error_dropped_still_200.2 ⟨"multipart/mixed; boundary=\"B\"", "no parts here"⟩).1
  · exact (c7_framing_error_dropped_still_200.2 ⟨"multipart/mixed; boundary=\"B\"", "no parts here"⟩).2

end PeakAcl
